import Mathlib

/-!
# Photoelectric-effect simulation: wavelength colours and the frame loop

A shallow embedding of `src/main.cpp`.

Modelling conventions.

* A C++ `float` or `double` value is the rational number (`ℚ`) it denotes.
* The energy computations follow IEEE 754 arithmetic: `toFloat` and `toDouble`
  round a rational to the nearest `float` (binary32) and `double` (binary64),
  ties to even, and every operation of the source that produces a photon
  energy, a residual energy, or a constant entering them is rounded to the type
  the C++ expression has.  Overflow to infinity is not represented; the energies
  of the program are far from it.
* The geometry (positions, velocities, rectangle bounds, `Update`) and the
  wavelength colour use the exact rational operations.
* The one division of the program whose divisor can be zero, `0.1 / intensity`,
  goes through `fdiv`, which reports the zero divisor instead of returning a
  number.
* `uint8_t` and the `sf::Uint8` colour channels are integers; a store into one
  of them is `toUint8`, reduction modulo `2^8`.  `int` arithmetic is `Int`
  arithmetic with the truncating division `Int.tdiv`.
* Library code that is not part of the repository (`std::sqrt`, the SFML
  bounding-box intersection test, the clock and the random device) enters the
  model as parameters or per-frame inputs.
-/

namespace Photoeffect

/-! ## Wavelength to colour -/

/-- Conversion of a `double` to an integer type: the fractional part is
discarded (rounding toward zero). -/
def truncate (q : ℚ) : Int :=
  if 0 ≤ q then ⌊q⌋ else ⌈q⌉

/-- A store into an 8-bit unsigned variable keeps the value modulo `2^8`. -/
def toUint8 (z : Int) : Int :=
  z % 256

/-- The value `sf::Color` with its three colour channels (alpha is always 255). -/
structure Color where
  r : Int
  g : Int
  b : Int
  deriving DecidableEq, Repr

/-- The table `kWaveLengths` of breakpoints, in nanometres. -/
def kWaveLengths : List ℚ :=
  [0, 380, 450, 485, 500, 565, 590, 625, 750, 860]

/-- The function `get_wave_length_bound`: the loop runs `i` over
`0 .. size - 2` and returns at the first `i` with `wave_length <= kWaveLengths[i + 1]`;
when the loop ends without returning, the last two entries are returned. -/
def get_wave_length_bound (wave_length : ℚ) : ℚ × ℚ :=
  match (List.range (kWaveLengths.length - 1)).find?
      (fun i => decide (wave_length ≤ kWaveLengths.getD (i + 1) 0)) with
  | some i => (kWaveLengths.getD i 0, kWaveLengths.getD (i + 1) 0)
  | none =>
    (kWaveLengths.getD (kWaveLengths.length - 2) 0,
     kWaveLengths.getD (kWaveLengths.length - 1) 0)

/-- The `double` expression `(wave_length - min_wave) * 255 / (max_wave - min_wave)`
of `GetWaveColor`, before it is converted to `uint8_t`. -/
def varColorValue (wave_length : ℚ) : ℚ :=
  let bound := get_wave_length_bound wave_length
  (wave_length - bound.1) * 255 / (bound.2 - bound.1)

/-- The local `var_color` of `GetWaveColor`: the expression above truncated to an
integer and stored in a `uint8_t`. -/
def var_color (wave_length : ℚ) : Int :=
  toUint8 (truncate (varColorValue wave_length))

/-- The `if`/`else if` chain of `GetWaveColor`: the `int` values assigned to the
red, green and blue channels for a band starting at `min_wave`, before they are
stored in the 8-bit channels.  A channel the branch does not assign keeps the `0`
of `result = {0, 0, 0}`. -/
def bandChannels (min_wave : ℚ) (t : Int) : Int × Int × Int :=
  if min_wave < 380 then
    (220, 0, 255)
  else if min_wave = 380 then
    (220 - Int.tdiv (t * 220) 255, 0, 255)
  else if min_wave = 450 then
    (0, Int.tdiv (t * 180) 255, 255)
  else if min_wave = 485 then
    (0, 180 + Int.tdiv (t * 60) 255, 255 - Int.tdiv (t * 75) 255)
  else if min_wave = 500 then
    (Int.tdiv (t * 180) 255, 240 + Int.tdiv (t * 15) 255, 185 - Int.tdiv (t * 75) 255)
  else if min_wave = 565 then
    (200 + Int.tdiv (t * 55) 255, 255 - Int.tdiv (t * 25) 255, 75 - Int.tdiv (t * 75) 255)
  else if min_wave = 590 then
    (245 - Int.tdiv (t * 20) 255, 210 - Int.tdiv (t * 100) 255, 0)
  else if min_wave = 625 then
    (225 + Int.tdiv (t * 30) 255, 110 - Int.tdiv (t * 100) 255, 0)
  else if min_wave > 625 then
    (255, 0, 0)
  else
    (0, 0, 0)

/-- The colour a band formula yields once its values are stored in the channels. -/
def bandColor (min_wave : ℚ) (t : Int) : Color :=
  let c := bandChannels min_wave t
  ⟨toUint8 c.1, toUint8 c.2.1, toUint8 c.2.2⟩

/-- The function `GetWaveColor`. -/
def GetWaveColor (wave_length : ℚ) : Color :=
  bandColor (get_wave_length_bound wave_length).1 (var_color wave_length)

/-- The position `i` (counted from zero) of a band in the table: the band from
`kWaveLengths[i]` to `kWaveLengths[i + 1]`. -/
def bandAt (i : Nat) : ℚ × ℚ :=
  (kWaveLengths.getD i 0, kWaveLengths.getD (i + 1) 0)

/-! ## Floating-point rounding -/

/-- Rounding of a rational to the nearest integer, a tie going to the even one. -/
def roundHalfEven (x : ℚ) : ℤ :=
  if x - ⌊x⌋ < 1 / 2 then ⌊x⌋
  else if 1 / 2 < x - ⌊x⌋ then ⌊x⌋ + 1
  else if ⌊x⌋ % 2 = 0 then ⌊x⌋ else ⌊x⌋ + 1

/-- Rounding to the nearest binary floating-point number with `prec` significant
bits and least normal exponent `emin` (round to nearest, ties to even, gradual
underflow): the value is a multiple of `2 ^ (e - (prec - 1))`, where `e` is the
binary exponent of `q`, or `emin` in the subnormal range. -/
def roundBinary (prec : ℕ) (emin : ℤ) (q : ℚ) : ℚ :=
  if q = 0 then 0
  else
    let quantum : ℚ := (2 : ℚ) ^ (max (Int.log 2 |q|) emin - ((prec : ℤ) - 1))
    (roundHalfEven (q / quantum) : ℚ) * quantum

/-- The value of a `float` expression: rounding to binary32. -/
def toFloat (q : ℚ) : ℚ := roundBinary 24 (-126) q

/-- The value of a `double` expression: rounding to binary64. -/
def toDouble (q : ℚ) : ℚ := roundBinary 53 (-1022) q

/-- The call `std::pow(10, n)`: the `double` nearest to `10 ^ n`. -/
def pow10 (n : ℤ) : ℚ := toDouble ((10 : ℚ) ^ n)

/-! ## Constants -/

/-- The constant `kLightSpeed`, `3 * std::pow(10, 8)`; the value `3e8` is a
`float`, so no rounding occurs. -/
def kLightSpeed : ℚ := 3 * (10 : ℚ) ^ (8 : ℤ)

/-- The constant `const float kPlankContant = 6.626 * std::pow(10, -34)`: the
`double` product of the `double` literal and the power, stored in a `float`. -/
def kPlankContant : ℚ := toFloat (toDouble (toDouble 6.626 * pow10 (-34)))

/-- The constant `const float kElectronCharge = 1.6 * std::pow(10, -19)`: the
`double` product of the `double` literal and the power, stored in a `float`. -/
def kElectronCharge : ℚ := toFloat (toDouble (toDouble 1.6 * pow10 (-19)))

/-- The constant `kPhotonScale`, `std::pow(10, -6)`; it enters only the
velocity of a photon (geometry, exact). -/
def kPhotonScale : ℚ := (10 : ℚ) ^ (-6 : ℤ)

/-- The constant `kElectronScale`, `std::pow(10, -4)`; it enters only the
velocity of an electron (geometry, exact). -/
def kElectronScale : ℚ := (10 : ℚ) ^ (-4 : ℤ)

/-! ## Particles and metals -/

/-- The value `sf::Vector2f`. -/
structure Vector2f where
  x : ℚ
  y : ℚ
  deriving DecidableEq, Repr

/-- The value `sf::FloatRect`: left, top, width, height. -/
structure FloatRect where
  left : ℚ
  top : ℚ
  width : ℚ
  height : ℚ
  deriving DecidableEq, Repr

/-- The class `Photon`: its kinetic energy, its speed, and of its `circle_` the
position, the radius and the fill colour (outline colour and thickness are the
same for every particle). -/
structure Photon where
  kinetic_energy_ : ℚ
  speed_ : Vector2f
  position : Vector2f
  radius : ℚ
  fillColor : Color
  deriving DecidableEq, Repr

namespace Photon

/-- The constructor `Photon(color, kinetic_energy, radius)`: speed and position
start at the origin. -/
def new (color : Color) (kinetic_energy radius : ℚ) : Photon :=
  { kinetic_energy_ := kinetic_energy, speed_ := ⟨0, 0⟩, position := ⟨0, 0⟩,
    radius := radius, fillColor := color }

/-- The getter `GetSpeed`. -/
def GetSpeed (p : Photon) : Vector2f := p.speed_

/-- The setter `SetSpeed`. -/
def SetSpeed (p : Photon) (speed : Vector2f) : Photon := { p with speed_ := speed }

/-- The getter `GetPosition`. -/
def GetPosition (p : Photon) : Vector2f := p.position

/-- The setter `SetPosition`. -/
def SetPosition (p : Photon) (position : Vector2f) : Photon := { p with position := position }

/-- The getter `GetKinteticEnegery`. -/
def GetKinteticEnegery (p : Photon) : ℚ := p.kinetic_energy_

/-- The method `Update`: `SetPosition(circle_.getPosition() + speed_ * dt.asSeconds())`. -/
def Update (p : Photon) (dt : ℚ) : Photon :=
  p.SetPosition ⟨p.position.x + p.speed_.x * dt, p.position.y + p.speed_.y * dt⟩

end Photon

/-- The class `Electron` derives from `Photon` and adds no field. -/
abbrev Electron := Photon

/-- The colour `sf::Color::Cyan`. -/
def Color.Cyan : Color := ⟨0, 255, 255⟩

/-- The constant `Electron::kMass`, `9.1 * std::pow(10, -31)`; it enters only the
velocity of an electron (geometry, exact). -/
def Electron.kMass : ℚ := 9.1 * (10 : ℚ) ^ (-31 : ℤ)

/-- The constructor `Electron(kinetic_energy, radius)`. -/
def Electron.new (kinetic_energy radius : ℚ) : Electron :=
  Photon.new Color.Cyan kinetic_energy radius

/-- The class `Metal`. -/
structure Metal where
  name_ : String
  work_func_ : ℚ
  color_ : Color
  deriving DecidableEq, Repr

/-- The constructor `Metal(name, work_func, color)`: the parameter `work_func` is
a `float`, so the `double` argument is rounded to it. -/
def Metal.new (name : String) (work_func : ℚ) (color : Color) : Metal :=
  { name_ := name, work_func_ := toFloat work_func, color_ := color }

/-- The getter `GetWorkFunc`. -/
def Metal.GetWorkFunc (m : Metal) : ℚ := m.work_func_

/-- Zinc, the first metal of the catalog: `Metal("Цинк", 6.89 * std::pow(10, -19), ...)`. -/
def zinc : Metal :=
  Metal.new "Цинк" (toDouble (toDouble 6.89 * pow10 (-19))) ⟨186, 196, 200⟩

/-- Copper, the second metal of the catalog. -/
def copper : Metal :=
  Metal.new "Медь" (toDouble (toDouble 7.53 * pow10 (-19))) ⟨184, 115, 51⟩

/-- Magnesium, the third metal of the catalog. -/
def magnesium : Metal :=
  Metal.new "Магний" (toDouble (toDouble 5.90 * pow10 (-19))) ⟨193, 194, 195⟩

/-- The catalog `metals` of `main`: zinc, copper, magnesium. -/
def metals : List Metal :=
  [zinc, copper, magnesium]

/-! ## The frame loop -/

/-- Library code the loop calls: `std::sqrt`, and the test
`circle_.getGlobalBounds().intersects(rect)` behind `Photon::Intersects`. -/
structure Library where
  sqrt : ℚ → ℚ
  intersects : Photon → FloatRect → Bool

/-- The desktop size `sizes` read at start-up. -/
structure VideoMode where
  width : ℚ
  height : ℚ
  deriving DecidableEq, Repr

/-- The bounds of the `cathode` rectangle: size `(100, 700)` at
`(sizes.width * 0.05, sizes.height * 0.50)`. -/
def cathodeBounds (sizes : VideoMode) : FloatRect :=
  ⟨sizes.width * 0.05, sizes.height * 0.50, 100, 700⟩

/-- The bounds of the `anode` rectangle: size `(100, 700)` at
`(sizes.width * 0.92, sizes.height * 0.50)`. -/
def anodeBounds (sizes : VideoMode) : FloatRect :=
  ⟨sizes.width * 0.92, sizes.height * 0.50, 100, 700⟩

/-- What one iteration of the `while (window.isOpen())` loop reads from outside:
the frame time `elapsed` (in seconds), the values of the four settings after the
widgets ran, the reading of `create_clock` (in seconds) at the spawn test, and
the random `offset`; each is the value a `float` variable of `main` holds. -/
structure Frame where
  elapsed : ℚ
  wave_length : ℚ
  intensity : ℚ
  stopping_voltage : ℚ
  current_metal : Metal
  create_elapsed : ℚ
  offset : ℚ

/-- The ranges the controls give the settings: intensity in `[0, 1]`, stopping
voltage in `[-3, 3]`, a metal of the catalog.  (The wavelength is clamped by the
loop itself.) -/
def Frame.admissible (f : Frame) : Prop :=
  0 ≤ f.intensity ∧ f.intensity ≤ 1 ∧
  -3 ≤ f.stopping_voltage ∧ f.stopping_voltage ≤ 3 ∧
  f.current_metal ∈ metals

/-- The particle lists `photons` and `electrons` of `main`. -/
structure State where
  photons : List Photon
  electrons : List Electron

/-- The state before the first frame: both lists empty. -/
def State.initial : State := ⟨[], []⟩

/-- The function `std::clamp(v, lo, hi)`. -/
def clamp (v lo hi : ℚ) : ℚ :=
  if v < lo then lo else if hi < v then hi else v

/-- The result of a floating-point division: the quotient, or the report that the
divisor was zero. -/
inductive FloatQuotient where
  | value (q : ℚ)
  | divisionByZero
  deriving DecidableEq, Repr

/-- Floating-point division `a / b`. -/
def fdiv (a b : ℚ) : FloatQuotient :=
  if b = 0 then FloatQuotient.divisionByZero else FloatQuotient.value (a / b)

/-- The operand `0.1 / intensity` of the spawn test. -/
def spawnInterval (intensity : ℚ) : FloatQuotient :=
  fdiv 0.1 intensity

/-- The comparison `t > 0.1 / intensity`.  With a zero divisor the quotient of the
positive `0.1` is the IEEE infinity, which no clock reading exceeds. -/
def exceeds (t : ℚ) : FloatQuotient → Bool
  | FloatQuotient.value q => decide (t > q)
  | FloatQuotient.divisionByZero => false

/-- The local `const float frequency = kLightSpeed / (wave_length * std::pow(10, -9))`
of the spawn code: product and quotient are `double` operations, the result is
stored in a `float`. -/
def photonFrequency (wave_length : ℚ) : ℚ :=
  toFloat (toDouble (kLightSpeed / toDouble (wave_length * pow10 (-9))))

/-- The local `float kinetic_energy = kPlankContant * frequency` of the spawn code,
a `float` product. -/
def photonEnergy (wave_length : ℚ) : ℚ :=
  toFloat (kPlankContant * photonFrequency wave_length)

/-- The photon built in the body of the spawn `if`, for the (clamped) wavelength
and the random offset. -/
def newPhoton (sizes : VideoMode) (wave_length offset : ℚ) : Photon :=
  let speed := kLightSpeed * kPhotonScale
  let frequency := toFloat (toDouble (kLightSpeed / toDouble (wave_length * pow10 (-9))))
  let kinetic_energy := toFloat (kPlankContant * frequency)
  ((Photon.new (GetWaveColor wave_length) kinetic_energy 10).SetSpeed
      ⟨-speed * 2.5, speed⟩).SetPosition
    ⟨sizes.width * 0.83 + offset, sizes.height * 0.25 + offset⟩

/-- The spawn step: `wave_length` is clamped to `[200, 860]`, and when the clock
reading exceeds `0.1 / intensity` one photon is pushed to the back of the list. -/
def spawn (sizes : VideoMode) (f : Frame) (photons : List Photon) : List Photon :=
  if exceeds f.create_elapsed (spawnInterval f.intensity) then
    photons ++ [newPhoton sizes (clamp f.wave_length 200 860) f.offset]
  else
    photons

/-- The local `float kinetic_energy` of the collision loop,
`p.GetKinteticEnegery() - stopping_voltage * kElectronCharge - current_metal.GetWorkFunc()`:
the product is a `float` product, the two subtractions are `double` operations
(the photon energy is a `double`), and the result is stored in a `float`. -/
def residualEnergy (f : Frame) (p : Photon) : ℚ :=
  toFloat (toDouble (toDouble (p.GetKinteticEnegery -
    toFloat (f.stopping_voltage * kElectronCharge)) - f.current_metal.GetWorkFunc))

/-- The electron built in the body of `if (kinetic_energy > 0)`; its speed is
geometry and is computed exactly. -/
def newElectron (lib : Library) (p : Photon) (kinetic_energy : ℚ) : Electron :=
  let speed := lib.sqrt (kinetic_energy * 2 / Electron.kMass) * kElectronScale
  ((Electron.new kinetic_energy 10).SetPosition p.GetPosition).SetSpeed ⟨speed, 0⟩

/-- One iteration of the collision loop `for (auto& p : photons)`, on the electron
list built so far. -/
def collideOne (lib : Library) (sizes : VideoMode) (f : Frame)
    (electrons : List Electron) (p : Photon) : List Electron :=
  if lib.intersects p (cathodeBounds sizes) then
    let kinetic_energy := residualEnergy f p
    if kinetic_energy > 0 then
      electrons ++ [newElectron lib p kinetic_energy]
    else
      electrons
  else
    electrons

/-- The collision loop over the photon list. -/
def collide (lib : Library) (sizes : VideoMode) (f : Frame)
    (photons : List Photon) (electrons : List Electron) : List Electron :=
  photons.foldl (collideOne lib sizes f) electrons

/-- The call `std::erase_if(c, pred)`: the elements for which `pred` is false
stay, in order. -/
def erase_if {α : Type} (c : List α) (pred : α → Bool) : List α :=
  c.filter (fun a => !pred a)

/-- The predicate of the photon `erase_if`. -/
def photonTerminated (lib : Library) (sizes : VideoMode) (photon : Photon) : Bool :=
  lib.intersects photon (cathodeBounds sizes)

/-- The predicate of the electron `erase_if`. -/
def electronTerminated (lib : Library) (sizes : VideoMode) (electron : Electron) : Bool :=
  lib.intersects electron (anodeBounds sizes) ||
    decide (electron.GetSpeed = (⟨0, 0⟩ : Vector2f))

/-- The particle part of one loop iteration, from the spawn test to the electron
update (drawing does not change the lists). -/
def frameStep (lib : Library) (sizes : VideoMode) (s : State) (f : Frame) : State :=
  let photons := spawn sizes f s.photons
  let electrons := collide lib sizes f photons s.electrons
  let photons := erase_if photons (photonTerminated lib sizes)
  let photons := photons.map (fun p => p.Update f.elapsed)
  let electrons := erase_if electrons (electronTerminated lib sizes)
  let electrons := electrons.map (fun e => e.Update f.elapsed)
  ⟨photons, electrons⟩

/-- The loop run over a sequence of frames from the initial state. -/
def run (lib : Library) (sizes : VideoMode) (frames : List Frame) : State :=
  frames.foldl (frameStep lib sizes) State.initial

/-! ## A concrete library, for evaluating the model -/

/-- A rational lower approximation of the square root, exact to `2^-64` of the
denominator; positive on positive arguments. -/
def sampleSqrt (x : ℚ) : ℚ :=
  (Nat.sqrt (x.num.toNat * x.den * 4 ^ 64) : ℚ) / ((x.den : ℚ) * 2 ^ 64)

/-- The bounding-box test: the box of the disk with its outline of thickness 3
against the rectangle; they intersect when the overlap has positive area. -/
def sampleIntersects (p : Photon) (r : FloatRect) : Bool :=
  decide (max (p.position.x - 3) r.left < min (p.position.x + 2 * p.radius + 3) (r.left + r.width)) &&
  decide (max (p.position.y - 3) r.top < min (p.position.y + 2 * p.radius + 3) (r.top + r.height))

/-- The concrete library. -/
def sampleLibrary : Library := ⟨sampleSqrt, sampleIntersects⟩

/-- A 1000 by 1000 desktop: cathode box `[50, 150] x [500, 1200]`, anode box
`[920, 1020] x [500, 1200]`. -/
def sampleSizes : VideoMode := ⟨1000, 1000⟩

/-- A photon at `(100, 600)`, inside the cathode box of `sampleSizes`, with kinetic
energy the `double` `8e-19`. -/
def samplePhotonAtCathode : Photon :=
  { kinetic_energy_ := toDouble (8 / 10 ^ 19), speed_ := ⟨-750, 300⟩, position := ⟨100, 600⟩,
    radius := 10, fillColor := ⟨220, 0, 255⟩ }

/-- A frame with zinc selected and all other inputs zero. -/
def sampleFrame : Frame :=
  { elapsed := 0, wave_length := 0, intensity := 0, stopping_voltage := 0,
    current_metal := zinc, create_elapsed := 0, offset := 0 }

/-- A frame that spawns a photon of wavelength 500 nm: intensity 1/2, the spawn
clock at one second, frame time 1/60 s. -/
def sampleSpawnFrame : Frame :=
  { elapsed := 1 / 60, wave_length := 500, intensity := 1 / 2, stopping_voltage := 0,
    current_metal := zinc, create_elapsed := 1, offset := 0 }

/-- A photon in flight at `(500, 300)`, away from both electrodes. -/
def samplePhotonInFlight : Photon :=
  { kinetic_energy_ := toDouble (8 / 10 ^ 19), speed_ := ⟨-750, 300⟩, position := ⟨500, 300⟩,
    radius := 10, fillColor := ⟨220, 0, 255⟩ }

/-- An electron in flight at `(500, 600)` with velocity `(80, 0)`. -/
def sampleElectronInFlight : Electron :=
  { kinetic_energy_ := 4294105 / 2 ^ 85, speed_ := ⟨80, 0⟩, position := ⟨500, 600⟩,
    radius := 10, fillColor := Color.Cyan }

/-- An electron at `(950, 600)`, inside the anode box of `sampleSizes`. -/
def sampleElectronAtAnode : Electron :=
  { kinetic_energy_ := 4294105 / 2 ^ 85, speed_ := ⟨80, 0⟩, position := ⟨950, 600⟩,
    radius := 10, fillColor := Color.Cyan }

/-- A state with one photon inside the cathode, one photon in flight, one electron
in flight and one electron inside the anode. -/
def sampleState : State :=
  ⟨[samplePhotonAtCathode, samplePhotonInFlight], [sampleElectronInFlight, sampleElectronAtAnode]⟩

/-- A slow frame of one second that spawns a photon of wavelength 200 nm at
`(830, 250)`; the update moves it to `(80, 550)`, inside the cathode box. -/
def sampleSlowFrame : Frame :=
  { elapsed := 1, wave_length := 200, intensity := 1 / 2, stopping_voltage := 0,
    current_metal := zinc, create_elapsed := 1, offset := 0 }

/-- A frame with magnesium selected and the stopping voltage the `float` `0.1f`. -/
def sampleMagnesiumFrame : Frame :=
  { elapsed := 0, wave_length := 0, intensity := 0, stopping_voltage := toFloat 0.1,
    current_metal := magnesium, create_elapsed := 0, offset := 0 }

/-- A frame with zinc selected and the stopping voltage the `float` `-0.6f`. -/
def sampleZincFrame : Frame :=
  { elapsed := 0, wave_length := 0, intensity := 0, stopping_voltage := toFloat (-0.6),
    current_metal := zinc, create_elapsed := 0, offset := 0 }

/-! ## Invariants of the particle lists -/

/-- Every photon of the list has the kinetic energy the spawn code computes for
a wavelength `w` in `[200, 860]`. -/
def EnergyFromWavelength (photons : List Photon) : Prop :=
  ∀ p ∈ photons, ∃ w : ℚ, 200 ≤ w ∧ w ≤ 860 ∧ p.kinetic_energy_ = photonEnergy w

/-- Every electron of the list has positive kinetic energy and a velocity `(s, 0)`
with `s > 0`. -/
def ElectronsMoving (electrons : List Electron) : Prop :=
  ∀ e ∈ electrons, 0 < e.kinetic_energy_ ∧ 0 < e.speed_.x ∧ e.speed_.y = 0

/-! ## Theorems -/

/-! ### Evaluating the rounding -/

theorem roundHalfEven_near (x : ℚ) (m : ℤ) (h1 : (m : ℚ) - 1 / 2 < x)
    (h2 : x < (m : ℚ) + 1 / 2) : roundHalfEven x = m := by
  unfold roundHalfEven
  rcases le_or_lt (m : ℚ) x with h | h
  · have hf : ⌊x⌋ = m := Int.floor_eq_iff.mpr ⟨h, by linarith⟩
    rw [hf, if_pos (by linarith)]
  · have hf : ⌊x⌋ = m - 1 :=
      Int.floor_eq_iff.mpr ⟨by push_cast; linarith, by push_cast; linarith⟩
    rw [hf, if_neg (by push_cast; linarith), if_pos (by push_cast; linarith)]
    ring

theorem roundHalfEven_tie (x : ℚ) (m : ℤ)
    (h : x = (m : ℚ) + 1 / 2 ∨ x = (m : ℚ) - 1 / 2) (he : m % 2 = 0) :
    roundHalfEven x = m := by
  unfold roundHalfEven
  rcases h with h | h
  · have hf : ⌊x⌋ = m := Int.floor_eq_iff.mpr ⟨by linarith, by linarith⟩
    rw [hf, if_neg (by linarith), if_neg (by linarith), if_pos he]
  · have hf : ⌊x⌋ = m - 1 :=
      Int.floor_eq_iff.mpr ⟨by push_cast; linarith, by push_cast; linarith⟩
    rw [hf, if_neg (by push_cast; linarith), if_neg (by push_cast; linarith),
      if_neg (by omega)]
    ring

theorem log2_eq (q : ℚ) (e : ℤ) (h1 : (2 : ℚ) ^ e ≤ q) (h2 : q < (2 : ℚ) ^ (e + 1)) :
    Int.log 2 q = e := by
  have hq : 0 < q := lt_of_lt_of_le (by positivity) h1
  have a : e ≤ Int.log 2 q :=
    (Int.zpow_le_iff_le_log (by norm_num) hq).mp (by exact_mod_cast h1)
  have b : Int.log 2 q < e + 1 :=
    (Int.lt_zpow_iff_log_lt (by norm_num) hq).mp (by exact_mod_cast h2)
  omega

theorem roundBinary_eval (prec : ℕ) (emin : ℤ) (q : ℚ) (e m : ℤ)
    (h1 : (2 : ℚ) ^ e ≤ |q|) (h2 : |q| < (2 : ℚ) ^ (e + 1))
    (hm : roundHalfEven (q / (2 : ℚ) ^ (max e emin - ((prec : ℤ) - 1))) = m) :
    roundBinary prec emin q = (m : ℚ) * (2 : ℚ) ^ (max e emin - ((prec : ℤ) - 1)) := by
  have hq : q ≠ 0 := by
    intro h
    rw [h, abs_zero] at h1
    exact absurd h1 (not_le.mpr (by positivity))
  unfold roundBinary
  rw [if_neg hq]
  simp only [log2_eq |q| e h1 h2, hm]

theorem roundBinary_pos (prec : ℕ) (emin : ℤ) (q : ℚ) (e m : ℤ)
    (h1 : (2 : ℚ) ^ e ≤ q) (h2 : q < (2 : ℚ) ^ (e + 1))
    (hm : roundHalfEven (q / (2 : ℚ) ^ (max e emin - ((prec : ℤ) - 1))) = m) :
    roundBinary prec emin q = (m : ℚ) * (2 : ℚ) ^ (max e emin - ((prec : ℤ) - 1)) := by
  have hq : 0 < q := lt_of_lt_of_le (by positivity) h1
  exact roundBinary_eval prec emin q e m (by rw [abs_of_pos hq]; exact h1)
    (by rw [abs_of_pos hq]; exact h2) hm

theorem roundBinary_neg (prec : ℕ) (emin : ℤ) (q : ℚ) (e m : ℤ)
    (h1 : (2 : ℚ) ^ e ≤ -q) (h2 : -q < (2 : ℚ) ^ (e + 1))
    (hm : roundHalfEven (q / (2 : ℚ) ^ (max e emin - ((prec : ℤ) - 1))) = m) :
    roundBinary prec emin q = (m : ℚ) * (2 : ℚ) ^ (max e emin - ((prec : ℤ) - 1)) := by
  have hq : q < 0 := by
    have : 0 < -q := lt_of_lt_of_le (by positivity) h1
    linarith
  exact roundBinary_eval prec emin q e m (by rw [abs_of_neg hq]; exact h1)
    (by rw [abs_of_neg hq]; exact h2) hm

/-! ### Values of the constants and of the energy computations -/

theorem pow10_neg34 :
    pow10 (-34) = (4676805239458889 / 2 ^ 165) := by
  have h1 : toDouble (((10 : ℚ) ^ (-34 : ℤ))) = (4676805239458889 / 2 ^ 165) := by
    rw [toDouble, roundBinary_pos 53 (-1022) _ (-113) (4676805239458889) (by norm_num) (by norm_num)
      (roundHalfEven_near _ _ (by norm_num) (by norm_num))]
    norm_num
  unfold pow10
  rw [h1]

theorem pow10_neg19 :
    pow10 (-19) = (2076918743413931 / 2 ^ 114) := by
  have h1 : toDouble (((10 : ℚ) ^ (-19 : ℤ))) = (2076918743413931 / 2 ^ 114) := by
    rw [toDouble, roundBinary_pos 53 (-1022) _ (-64) (8307674973655724) (by norm_num) (by norm_num)
      (roundHalfEven_near _ _ (by norm_num) (by norm_num))]
    norm_num
  unfold pow10
  rw [h1]

theorem pow10_neg9 :
    pow10 (-9) = (4835703278458517 / 2 ^ 82) := by
  have h1 : toDouble (((10 : ℚ) ^ (-9 : ℤ))) = (4835703278458517 / 2 ^ 82) := by
    rw [toDouble, roundBinary_pos 53 (-1022) _ (-30) (4835703278458517) (by norm_num) (by norm_num)
      (roundHalfEven_near _ _ (by norm_num) (by norm_num))]
    norm_num
  unfold pow10
  rw [h1]

theorem kPlankContant_eq :
    kPlankContant = (7215075 / 2 ^ 133) := by
  have h1 : toDouble (6.626) = (7460212782739227 / 2 ^ 50) := by
    rw [toDouble, roundBinary_pos 53 (-1022) _ (2) (7460212782739227) (by norm_num) (by norm_num)
      (roundHalfEven_near _ _ (by norm_num) (by norm_num))]
    norm_num
  have h2 : toDouble ((7460212782739227 / 2 ^ 50) * (4676805239458889 / 2 ^ 165)) = (3873563939581825 / 2 ^ 162) := by
    rw [toDouble, roundBinary_pos 53 (-1022) _ (-111) (7747127879163650) (by norm_num) (by norm_num)
      (roundHalfEven_near _ _ (by norm_num) (by norm_num))]
    norm_num
  have h3 : toFloat ((3873563939581825 / 2 ^ 162)) = (7215075 / 2 ^ 133) := by
    rw [toFloat, roundBinary_pos 24 (-126) _ (-111) (14430150) (by norm_num) (by norm_num)
      (roundHalfEven_near _ _ (by norm_num) (by norm_num))]
    norm_num
  simp only [kPlankContant]
  rw [pow10_neg34, h1, h2, h3]

theorem kElectronCharge_eq :
    kElectronCharge = (1547425 / 2 ^ 83) := by
  have h1 : toDouble (1.6) = (3602879701896397 / 2 ^ 51) := by
    rw [toDouble, roundBinary_pos 53 (-1022) _ (0) (7205759403792794) (by norm_num) (by norm_num)
      (roundHalfEven_near _ _ (by norm_num) (by norm_num))]
    norm_num
  have h2 : toDouble ((3602879701896397 / 2 ^ 51) * (2076918743413931 / 2 ^ 114)) = (1661534994731145 / 2 ^ 113) := by
    rw [toDouble, roundBinary_pos 53 (-1022) _ (-63) (6646139978924580) (by norm_num) (by norm_num)
      (roundHalfEven_near _ _ (by norm_num) (by norm_num))]
    norm_num
  have h3 : toFloat ((1661534994731145 / 2 ^ 113)) = (1547425 / 2 ^ 83) := by
    rw [toFloat, roundBinary_pos 24 (-126) _ (-63) (12379400) (by norm_num) (by norm_num)
      (roundHalfEven_near _ _ (by norm_num) (by norm_num))]
    norm_num
  simp only [kElectronCharge]
  rw [pow10_neg19, h1, h2, h3]

theorem zinc_work_func :
    zinc.work_func_ = (6663599 / 2 ^ 83) := by
  have h1 : toDouble (6.89) = (7757450358145679 / 2 ^ 50) := by
    rw [toDouble, roundBinary_pos 53 (-1022) _ (2) (7757450358145679) (by norm_num) (by norm_num)
      (roundHalfEven_near _ _ (by norm_num) (by norm_num))]
    norm_num
  have h2 : toDouble ((7757450358145679 / 2 ^ 50) * (2076918743413931 / 2 ^ 114)) = (3493645054229 / 2 ^ 102) := by
    rw [toDouble, roundBinary_pos 53 (-1022) _ (-61) (7154985071060992) (by norm_num) (by norm_num)
      (roundHalfEven_near _ _ (by norm_num) (by norm_num))]
    norm_num
  have h3 : toFloat ((3493645054229 / 2 ^ 102)) = (6663599 / 2 ^ 83) := by
    rw [toFloat, roundBinary_pos 24 (-126) _ (-61) (13327198) (by norm_num) (by norm_num)
      (roundHalfEven_near _ _ (by norm_num) (by norm_num))]
    norm_num
  simp only [zinc, Metal.new]
  rw [pow10_neg19, h1, h2, h3]

theorem magnesium_work_func :
    magnesium.work_func_ = (2853065 / 2 ^ 82) := by
  have h1 : toDouble (5.90) = (3321404725185741 / 2 ^ 49) := by
    rw [toDouble, roundBinary_pos 53 (-1022) _ (2) (6642809450371482) (by norm_num) (by norm_num)
      (roundHalfEven_near _ _ (by norm_num) (by norm_num))]
    norm_num
  have h2 : toDouble ((3321404725185741 / 2 ^ 49) * (2076918743413931 / 2 ^ 114)) = (6126910293071097 / 2 ^ 113) := by
    rw [toDouble, roundBinary_pos 53 (-1022) _ (-61) (6126910293071097) (by norm_num) (by norm_num)
      (roundHalfEven_near _ _ (by norm_num) (by norm_num))]
    norm_num
  have h3 : toFloat ((6126910293071097 / 2 ^ 113)) = (2853065 / 2 ^ 82) := by
    rw [toFloat, roundBinary_pos 24 (-126) _ (-61) (11412260) (by norm_num) (by norm_num)
      (roundHalfEven_near _ _ (by norm_num) (by norm_num))]
    norm_num
  simp only [magnesium, Metal.new]
  rw [pow10_neg19, h1, h2, h3]

theorem photonFrequency_500 :
    photonFrequency 500 = 600000019038208 := by
  have h1 : toDouble (500 * (4835703278458517 / 2 ^ 82)) = (2361183241434823 / 2 ^ 72) := by
    rw [toDouble, roundBinary_pos 53 (-1022) _ (-21) (4722366482869646) (by norm_num) (by norm_num)
      (roundHalfEven_near _ _ (by norm_num) (by norm_num))]
    norm_num
  have h2 : toDouble (3 * (10 : ℚ) ^ (8 : ℤ) / (2361183241434823 / 2 ^ 72)) = (4799999999999999 / 2 ^ 3) := by
    rw [toDouble, roundBinary_pos 53 (-1022) _ (49) (4799999999999999) (by norm_num) (by norm_num)
      (roundHalfEven_near _ _ (by norm_num) (by norm_num))]
    norm_num
  have h3 : toFloat ((4799999999999999 / 2 ^ 3)) = 600000019038208 := by
    rw [toFloat, roundBinary_pos 24 (-126) _ (49) (8940697) (by norm_num) (by norm_num)
      (roundHalfEven_near _ _ (by norm_num) (by norm_num))]
    norm_num
  simp only [photonFrequency, kLightSpeed]
  rw [pow10_neg9, h1, h2, h3]

theorem photonEnergy_500 :
    photonEnergy 500 = (7689929 / 2 ^ 84) := by
  have h1 : toFloat ((7215075 / 2 ^ 133) * 600000019038208) = (7689929 / 2 ^ 84) := by
    rw [toFloat, roundBinary_pos 24 (-126) _ (-62) (15379858) (by norm_num) (by norm_num)
      (roundHalfEven_near _ _ (by norm_num) (by norm_num))]
    norm_num
  simp only [photonEnergy]
  rw [photonFrequency_500, kPlankContant_eq, h1]

theorem photonFrequency_200 :
    photonFrequency 200 = 1500000014041088 := by
  have h1 : toDouble (200 * (4835703278458517 / 2 ^ 82)) = (7555786372591433 / 2 ^ 75) := by
    rw [toDouble, roundBinary_pos 53 (-1022) _ (-23) (7555786372591433) (by norm_num) (by norm_num)
      (roundHalfEven_near _ _ (by norm_num) (by norm_num))]
    norm_num
  have h2 : toDouble (3 * (10 : ℚ) ^ (8 : ℤ) / (7555786372591433 / 2 ^ 75)) = (5999999999999999 / 2 ^ 2) := by
    rw [toDouble, roundBinary_pos 53 (-1022) _ (50) (5999999999999999) (by norm_num) (by norm_num)
      (roundHalfEven_near _ _ (by norm_num) (by norm_num))]
    norm_num
  have h3 : toFloat ((5999999999999999 / 2 ^ 2)) = 1500000014041088 := by
    rw [toFloat, roundBinary_pos 24 (-126) _ (50) (11175871) (by norm_num) (by norm_num)
      (roundHalfEven_near _ _ (by norm_num) (by norm_num))]
    norm_num
  simp only [photonFrequency, kLightSpeed]
  rw [pow10_neg9, h1, h2, h3]

theorem photonEnergy_200 :
    photonEnergy 200 = (9612411 / 2 ^ 83) := by
  have h1 : toFloat ((7215075 / 2 ^ 133) * 1500000014041088) = (9612411 / 2 ^ 83) := by
    rw [toFloat, roundBinary_pos 24 (-126) _ (-60) (9612411) (by norm_num) (by norm_num)
      (roundHalfEven_near _ _ (by norm_num) (by norm_num))]
    norm_num
  simp only [photonEnergy]
  rw [photonFrequency_200, kPlankContant_eq, h1]

theorem photonFrequency_328 :
    photonFrequency (10748553 / 2 ^ 15) = 914578925944832 := by
  have h1 : toDouble ((10748553 / 2 ^ 15) * (4835703278458517 / 2 ^ 82)) = (1549029737138305 / 2 ^ 72) := by
    rw [toDouble, roundBinary_pos 53 (-1022) _ (-22) (6196118948553220) (by norm_num) (by norm_num)
      (roundHalfEven_near _ _ (by norm_num) (by norm_num))]
    norm_num
  have h2 : toDouble (3 * (10 : ℚ) ^ (8 : ℤ) / (1549029737138305 / 2 ^ 72)) = (7316631364240377 / 2 ^ 3) := by
    rw [toDouble, roundBinary_pos 53 (-1022) _ (49) (7316631364240377) (by norm_num) (by norm_num)
      (roundHalfEven_near _ _ (by norm_num) (by norm_num))]
    norm_num
  have h3 : toFloat ((7316631364240377 / 2 ^ 3)) = 914578925944832 := by
    rw [toFloat, roundBinary_pos 24 (-126) _ (49) (13628288) (by norm_num) (by norm_num)
      (roundHalfEven_near _ _ (by norm_num) (by norm_num))]
    norm_num
  simp only [photonFrequency, kLightSpeed]
  rw [pow10_neg9, h1, h2, h3]

theorem photonEnergy_328 :
    photonEnergy (10748553 / 2 ^ 15) = (11721745 / 2 ^ 84) := by
  have h1 : toFloat ((7215075 / 2 ^ 133) * 914578925944832) = (11721745 / 2 ^ 84) := by
    rw [toFloat, roundBinary_pos 24 (-126) _ (-61) (11721745) (by norm_num) (by norm_num)
      (roundHalfEven_near _ _ (by norm_num) (by norm_num))]
    norm_num
  simp only [photonEnergy]
  rw [photonFrequency_328, kPlankContant_eq, h1]

theorem photonFrequency_335 :
    photonFrequency (10984187 / 2 ^ 15) = 894959246901248 := by
  have h1 : toDouble ((10984187 / 2 ^ 15) * (4835703278458517 / 2 ^ 82)) = (6331952701461485 / 2 ^ 74) := by
    rw [toDouble, roundBinary_pos 53 (-1022) _ (-22) (6331952701461485) (by norm_num) (by norm_num)
      (roundHalfEven_near _ _ (by norm_num) (by norm_num))]
    norm_num
  have h2 : toDouble (3 * (10 : ℚ) ^ (8 : ℤ) / (6331952701461485 / 2 ^ 74)) = 894959271906059 := by
    rw [toDouble, roundBinary_pos 53 (-1022) _ (49) (7159674175248472) (by norm_num) (by norm_num)
      (roundHalfEven_near _ _ (by norm_num) (by norm_num))]
    norm_num
  have h3 : toFloat (894959271906059) = 894959246901248 := by
    rw [toFloat, roundBinary_pos 24 (-126) _ (49) (13335932) (by norm_num) (by norm_num)
      (roundHalfEven_near _ _ (by norm_num) (by norm_num))]
    norm_num
  simp only [photonFrequency, kLightSpeed]
  rw [pow10_neg9, h1, h2, h3]

theorem photonEnergy_335 :
    photonEnergy (10984187 / 2 ^ 15) = (716893 / 2 ^ 80) := by
  have h1 : toFloat ((7215075 / 2 ^ 133) * 894959246901248) = (716893 / 2 ^ 80) := by
    rw [toFloat, roundBinary_pos 24 (-126) _ (-61) (11470288) (by norm_num) (by norm_num)
      (roundHalfEven_near _ _ (by norm_num) (by norm_num))]
    norm_num
  simp only [photonEnergy]
  rw [photonFrequency_335, kPlankContant_eq, h1]

theorem toFloat_wave328 :
    toFloat 328.0198059 = (10748553 / 2 ^ 15) := by
  have h1 : toFloat (328.0198059) = (10748553 / 2 ^ 15) := by
    rw [toFloat, roundBinary_pos 24 (-126) _ (8) (10748553) (by norm_num) (by norm_num)
      (roundHalfEven_near _ _ (by norm_num) (by norm_num))]
    norm_num
  rw [h1]

theorem toFloat_wave335 :
    toFloat 335.2107849 = (10984187 / 2 ^ 15) := by
  have h1 : toFloat (335.2107849) = (10984187 / 2 ^ 15) := by
    rw [toFloat, roundBinary_pos 24 (-126) _ (8) (10984187) (by norm_num) (by norm_num)
      (roundHalfEven_near _ _ (by norm_num) (by norm_num))]
    norm_num
  rw [h1]

theorem toFloat_tenth :
    toFloat 0.1 = (13421773 / 2 ^ 27) := by
  have h1 : toFloat (0.1) = (13421773 / 2 ^ 27) := by
    rw [toFloat, roundBinary_pos 24 (-126) _ (-4) (13421773) (by norm_num) (by norm_num)
      (roundHalfEven_near _ _ (by norm_num) (by norm_num))]
    norm_num
  rw [h1]

theorem toFloat_neg_six_tenths :
    toFloat (-0.6) = (-5033165 / 2 ^ 23) := by
  have h1 : toFloat ((-0.6)) = (-5033165 / 2 ^ 23) := by
    rw [toFloat, roundBinary_neg 24 (-126) _ (-1) (-10066330) (by norm_num) (by norm_num)
      (roundHalfEven_near _ _ (by norm_num) (by norm_num))]
    norm_num
  rw [h1]

theorem toDouble_energy_8 :
    toDouble (8 / 10 ^ 19) = (2076918743413931 / 2 ^ 111) := by
  have h1 : toDouble ((8 / 10 ^ 19)) = (2076918743413931 / 2 ^ 111) := by
    rw [toDouble, roundBinary_pos 53 (-1022) _ (-61) (8307674973655724) (by norm_num) (by norm_num)
      (roundHalfEven_near _ _ (by norm_num) (by norm_num))]
    norm_num
  rw [h1]

theorem residual_high_double :
    toFloat (toDouble (toDouble ((2076918743413931 / 2 ^ 111) - toFloat (0 * (1547425 / 2 ^ 83))) - (6663599 / 2 ^ 83))) = (4294105 / 2 ^ 85) := by
  have h1 : toFloat (0 * (1547425 / 2 ^ 83)) = 0 := by
    rw [show (0 * (1547425 / 2 ^ 83) : ℚ) = 0 by norm_num]
    simp [toFloat, roundBinary]
  have h2 : toDouble ((2076918743413931 / 2 ^ 111) - 0) = (2076918743413931 / 2 ^ 111) := by
    rw [toDouble, roundBinary_pos 53 (-1022) _ (-61) (8307674973655724) (by norm_num) (by norm_num)
      (roundHalfEven_near _ _ (by norm_num) (by norm_num))]
    norm_num
  have h3 : toDouble ((2076918743413931 / 2 ^ 111) - (6663599 / 2 ^ 83)) = (288172507247787 / 2 ^ 111) := by
    rw [toDouble, roundBinary_pos 53 (-1022) _ (-63) (4610760115964592) (by norm_num) (by norm_num)
      (roundHalfEven_near _ _ (by norm_num) (by norm_num))]
    norm_num
  have h4 : toFloat ((288172507247787 / 2 ^ 111)) = (4294105 / 2 ^ 85) := by
    rw [toFloat, roundBinary_pos 24 (-126) _ (-63) (8588210) (by norm_num) (by norm_num)
      (roundHalfEven_near _ _ (by norm_num) (by norm_num))]
    norm_num
  rw [h1, h2, h3, h4]

theorem residual_200 :
    toFloat (toDouble (toDouble ((9612411 / 2 ^ 83) - toFloat (0 * (1547425 / 2 ^ 83))) - (6663599 / 2 ^ 83))) = (737203 / 2 ^ 81) := by
  have h1 : toFloat (0 * (1547425 / 2 ^ 83)) = 0 := by
    rw [show (0 * (1547425 / 2 ^ 83) : ℚ) = 0 by norm_num]
    simp [toFloat, roundBinary]
  have h2 : toDouble ((9612411 / 2 ^ 83) - 0) = (9612411 / 2 ^ 83) := by
    rw [toDouble, roundBinary_pos 53 (-1022) _ (-60) (5160623860088832) (by norm_num) (by norm_num)
      (roundHalfEven_near _ _ (by norm_num) (by norm_num))]
    norm_num
  have h3 : toDouble ((9612411 / 2 ^ 83) - (6663599 / 2 ^ 83)) = (737203 / 2 ^ 81) := by
    rw [toDouble, roundBinary_pos 53 (-1022) _ (-62) (6332525551026176) (by norm_num) (by norm_num)
      (roundHalfEven_near _ _ (by norm_num) (by norm_num))]
    norm_num
  have h4 : toFloat ((737203 / 2 ^ 81)) = (737203 / 2 ^ 81) := by
    rw [toFloat, roundBinary_pos 24 (-126) _ (-62) (11795248) (by norm_num) (by norm_num)
      (roundHalfEven_near _ _ (by norm_num) (by norm_num))]
    norm_num
  rw [h1, h2, h3, h4]

theorem residual_magnesium :
    toFloat (toDouble (toDouble ((11721745 / 2 ^ 84) - toFloat ((13421773 / 2 ^ 27) * (1547425 / 2 ^ 83))) - (2853065 / 2 ^ 82))) = 0 := by
  have h1 : toFloat ((13421773 / 2 ^ 27) * (1547425 / 2 ^ 83)) = (309485 / 2 ^ 84) := by
    rw [toFloat, roundBinary_pos 24 (-126) _ (-66) (9903520) (by norm_num) (by norm_num)
      (roundHalfEven_near _ _ (by norm_num) (by norm_num))]
    norm_num
  have h2 : toDouble ((11721745 / 2 ^ 84) - (309485 / 2 ^ 84)) = (2853065 / 2 ^ 82) := by
    rw [toDouble, roundBinary_pos 53 (-1022) _ (-61) (6126910434181120) (by norm_num) (by norm_num)
      (roundHalfEven_near _ _ (by norm_num) (by norm_num))]
    norm_num
  have h3 : toDouble ((2853065 / 2 ^ 82) - (2853065 / 2 ^ 82)) = 0 := by
    rw [show ((2853065 / 2 ^ 82) - (2853065 / 2 ^ 82) : ℚ) = 0 by norm_num]
    simp [toDouble, roundBinary]
  have h4 : toFloat (0) = 0 := by
    rw [show (0 : ℚ) = 0 by norm_num]
    simp [toFloat, roundBinary]
  rw [h1, h2, h3, h4]

theorem residual_zinc :
    toFloat (toDouble (toDouble ((716893 / 2 ^ 80) - toFloat ((-5033165 / 2 ^ 23) * (1547425 / 2 ^ 83))) - (6663599 / 2 ^ 83))) = (1 / 2 ^ 87) := by
  have h1 : toFloat ((-5033165 / 2 ^ 23) * (1547425 / 2 ^ 83)) = (-14855281 / 2 ^ 87) := by
    rw [toFloat, roundBinary_neg 24 (-126) _ (-64) (-14855281) (by norm_num) (by norm_num)
      (roundHalfEven_near _ _ (by norm_num) (by norm_num))]
    norm_num
  have h2 : toDouble ((716893 / 2 ^ 80) - (-14855281 / 2 ^ 87)) = (106617585 / 2 ^ 87) := by
    rw [toDouble, roundBinary_pos 53 (-1022) _ (-61) (7154985011773440) (by norm_num) (by norm_num)
      (roundHalfEven_near _ _ (by norm_num) (by norm_num))]
    norm_num
  have h3 : toDouble ((106617585 / 2 ^ 87) - (6663599 / 2 ^ 83)) = (1 / 2 ^ 87) := by
    rw [toDouble, roundBinary_pos 53 (-1022) _ (-87) (4503599627370496) (by norm_num) (by norm_num)
      (roundHalfEven_near _ _ (by norm_num) (by norm_num))]
    norm_num
  have h4 : toFloat ((1 / 2 ^ 87)) = (1 / 2 ^ 87) := by
    rw [toFloat, roundBinary_pos 24 (-126) _ (-87) (8388608) (by norm_num) (by norm_num)
      (roundHalfEven_near _ _ (by norm_num) (by norm_num))]
    norm_num
  rw [h1, h2, h3, h4]

/-! ### Accuracy of the rounding -/

theorem roundHalfEven_err (x : ℚ) :
    (roundHalfEven x : ℚ) - x ≤ 1 / 2 ∧ x - (roundHalfEven x : ℚ) ≤ 1 / 2 := by
  have h1 := Int.floor_le x
  have h2 := Int.lt_floor_add_one x
  unfold roundHalfEven
  split_ifs with a b c
  · constructor <;> linarith
  · push_cast; constructor <;> linarith
  · have : x - ⌊x⌋ = 1 / 2 := le_antisymm (not_lt.mp b) (not_lt.mp a)
    constructor <;> linarith
  · have : x - ⌊x⌋ = 1 / 2 := le_antisymm (not_lt.mp b) (not_lt.mp a)
    push_cast; constructor <;> linarith

theorem roundBinary_rel (prec : ℕ) (emin : ℤ) (q : ℚ) (hmin : (2 : ℚ) ^ emin ≤ q) :
    q * (1 - (2 : ℚ) ^ (-(prec : ℤ))) ≤ roundBinary prec emin q ∧
    roundBinary prec emin q ≤ q * (1 + (2 : ℚ) ^ (-(prec : ℤ))) := by
  have hq : 0 < q := lt_of_lt_of_le (by positivity) hmin
  have he : emin ≤ Int.log 2 q :=
    (Int.zpow_le_iff_le_log (by norm_num) hq).mp (by exact_mod_cast hmin)
  have hlog : (2 : ℚ) ^ Int.log 2 q ≤ q := by
    have := Int.zpow_log_le_self (b := 2) (r := q) (by norm_num) hq
    exact_mod_cast this
  unfold roundBinary
  rw [if_neg (ne_of_gt hq), abs_of_pos hq, max_eq_left he]
  simp only []
  have hQ : (0 : ℚ) < (2 : ℚ) ^ (Int.log 2 q - ((prec : ℤ) - 1)) := by positivity
  obtain ⟨r1, r2⟩ := roundHalfEven_err (q / (2 : ℚ) ^ (Int.log 2 q - ((prec : ℤ) - 1)))
  have hsplit : (2 : ℚ) ^ (Int.log 2 q - ((prec : ℤ) - 1)) =
      2 * ((2 : ℚ) ^ Int.log 2 q * (2 : ℚ) ^ (-(prec : ℤ))) := by
    rw [← zpow_add₀ (by norm_num : (2 : ℚ) ≠ 0), ← zpow_one_add₀ (by norm_num : (2 : ℚ) ≠ 0)]
    congr 1
    ring
  have hp : (0 : ℚ) < (2 : ℚ) ^ (-(prec : ℤ)) := by positivity
  have hbound : (2 : ℚ) ^ (Int.log 2 q - ((prec : ℤ) - 1)) / 2 ≤ q * (2 : ℚ) ^ (-(prec : ℤ)) := by
    rw [hsplit]
    have := mul_le_mul_of_nonneg_right hlog (le_of_lt hp)
    linarith
  have hqQ : q / (2 : ℚ) ^ (Int.log 2 q - ((prec : ℤ) - 1)) *
      (2 : ℚ) ^ (Int.log 2 q - ((prec : ℤ) - 1)) = q := by
    field_simp
  have e1 := mul_le_mul_of_nonneg_right r1 (le_of_lt hQ)
  have e2 := mul_le_mul_of_nonneg_right r2 (le_of_lt hQ)
  rw [sub_mul, hqQ] at e1 e2
  constructor <;> nlinarith

theorem toDouble_rel (q : ℚ) (hmin : (2 : ℚ) ^ (-1022 : ℤ) ≤ q) :
    q * (1 - 1 / 2 ^ 53) ≤ toDouble q ∧ toDouble q ≤ q * (1 + 1 / 2 ^ 53) := by
  have h := roundBinary_rel 53 (-1022) q hmin
  have e : (2 : ℚ) ^ (-((53 : ℕ) : ℤ)) = 1 / 2 ^ 53 := by norm_num
  rw [e] at h
  exact h

theorem toFloat_rel (q : ℚ) (hmin : (2 : ℚ) ^ (-126 : ℤ) ≤ q) :
    q * (1 - 1 / 2 ^ 24) ≤ toFloat q ∧ toFloat q ≤ q * (1 + 1 / 2 ^ 24) := by
  have h := roundBinary_rel 24 (-126) q hmin
  have e : (2 : ℚ) ^ (-((24 : ℕ) : ℤ)) = 1 / 2 ^ 24 := by norm_num
  rw [e] at h
  exact h

theorem scale_div (K c w P d u v : ℚ) (hw : w ≠ 0) (hP : P ≠ 0) (hd : d ≠ 0) :
    K * (c / (w * P * d) * u * v) * v = (K * (c / (P * d) * u * v) * v) / w := by
  field_simp
  left
  ring

theorem photonEnergy_bounds (w P K : ℚ) (h0 : 200 ≤ w) (h1 : w ≤ 860)
    (hP : P = 4835703278458517 / 2 ^ 82) (hK : K = 7215075 / 2 ^ 133) :
    K * (300000000 / (w * P * (1 + 1 / 2 ^ 53)) * (1 - 1 / 2 ^ 53) * (1 - 1 / 2 ^ 24)) *
        (1 - 1 / 2 ^ 24) ≤ photonEnergy w ∧
    photonEnergy w ≤
      K * (300000000 / (w * P * (1 - 1 / 2 ^ 53)) * (1 + 1 / 2 ^ 53) * (1 + 1 / 2 ^ 24)) *
        (1 + 1 / 2 ^ 24) := by
  have hw : 0 < w := by linarith
  have hPpos : 0 < P := by rw [hP]; norm_num
  have hPlo : 1 / 10 ^ 10 ≤ P := by rw [hP]; norm_num
  have hPhi : P ≤ 1 / 10 ^ 8 := by rw [hP]; norm_num
  have hKpos : 0 < K := by rw [hK]; norm_num
  have hKlo : 1 / 10 ^ 34 ≤ K := by rw [hK]; norm_num
  have hE : photonEnergy w = toFloat (K * toFloat (toDouble (300000000 / toDouble (w * P)))) := by
    unfold photonEnergy photonFrequency
    rw [pow10_neg9, kPlankContant_eq, hP, hK]
    norm_num [kLightSpeed]
  -- the product `w * 1e-9`
  have ha_pos : 0 < w * P := mul_pos hw hPpos
  have ha_lo : 1 / 10 ^ 8 ≤ w * P := by nlinarith
  have ha_hi : w * P ≤ 1 / 10 ^ 5 := by nlinarith
  obtain ⟨x1l, x1u⟩ := toDouble_rel (w * P) (le_trans (by norm_num) ha_lo)
  have x1pos : 0 < toDouble (w * P) := by nlinarith
  have x1hi : toDouble (w * P) ≤ 1 / 10 ^ 4 := by nlinarith
  -- the quotient
  have hb_lo : 10 ^ 12 ≤ 300000000 / toDouble (w * P) := by
    rw [le_div_iff₀ x1pos]
    nlinarith
  have hb_pos : 0 < 300000000 / toDouble (w * P) := lt_of_lt_of_le (by norm_num) hb_lo
  obtain ⟨x2l, x2u⟩ := toDouble_rel (300000000 / toDouble (w * P))
    (le_trans (by norm_num) hb_lo)
  have x2lo : 10 ^ 11 ≤ toDouble (300000000 / toDouble (w * P)) := by nlinarith
  -- the frequency
  obtain ⟨fl, fu⟩ := toFloat_rel (toDouble (300000000 / toDouble (w * P)))
    (le_trans (by norm_num) x2lo)
  have flo : 10 ^ 10 ≤ toFloat (toDouble (300000000 / toDouble (w * P))) := by nlinarith
  -- the energy
  have glo : 1 / 10 ^ 24 ≤ K * toFloat (toDouble (300000000 / toDouble (w * P))) := by
    nlinarith
  obtain ⟨El, Eu⟩ := toFloat_rel (K * toFloat (toDouble (300000000 / toDouble (w * P))))
    (le_trans (by norm_num) glo)
  -- the chain of bounds
  have hd1 : (0 : ℚ) < w * P * (1 - 1 / 2 ^ 53) := mul_pos ha_pos (by norm_num)
  have hbU : 300000000 / toDouble (w * P) ≤ 300000000 / (w * P * (1 - 1 / 2 ^ 53)) :=
    div_le_div_of_nonneg_left (by norm_num) hd1 x1l
  have hbL : 300000000 / (w * P * (1 + 1 / 2 ^ 53)) ≤ 300000000 / toDouble (w * P) :=
    div_le_div_of_nonneg_left (by norm_num) x1pos x1u
  have hx2pos : 0 < toDouble (300000000 / toDouble (w * P)) := lt_of_lt_of_le (by norm_num) x2lo
  have hfpos : 0 < toFloat (toDouble (300000000 / toDouble (w * P))) :=
    lt_of_lt_of_le (by norm_num) flo
  have hK0 : 0 ≤ K := le_of_lt hKpos
  have up : photonEnergy w ≤
      K * (300000000 / (w * P * (1 - 1 / 2 ^ 53)) * (1 + 1 / 2 ^ 53) * (1 + 1 / 2 ^ 24)) *
        (1 + 1 / 2 ^ 24) := by
    rw [hE]
    refine le_trans Eu (mul_le_mul_of_nonneg_right (mul_le_mul_of_nonneg_left ?_ hK0)
      (by norm_num))
    refine le_trans fu (mul_le_mul_of_nonneg_right ?_ (by norm_num))
    exact le_trans x2u (mul_le_mul_of_nonneg_right hbU (by norm_num))
  have lo : K * (300000000 / (w * P * (1 + 1 / 2 ^ 53)) * (1 - 1 / 2 ^ 53) * (1 - 1 / 2 ^ 24)) *
        (1 - 1 / 2 ^ 24) ≤ photonEnergy w := by
    rw [hE]
    refine le_trans (mul_le_mul_of_nonneg_right (mul_le_mul_of_nonneg_left ?_ hK0)
      (by norm_num)) El
    refine le_trans (mul_le_mul_of_nonneg_right ?_ (by norm_num)) fl
    exact le_trans (mul_le_mul_of_nonneg_right hbL (by norm_num)) x2l
  exact ⟨lo, up⟩

theorem photonEnergy_accuracy (w : ℚ) (h0 : 200 ≤ w) (h1 : w ≤ 860) :
    |photonEnergy w - 6626 / 10 ^ 37 * (3 * 10 ^ 8 / (w * (1 / 10 ^ 9)))| ≤
      1 / 10 ^ 6 * (6626 / 10 ^ 37 * (3 * 10 ^ 8 / (w * (1 / 10 ^ 9)))) := by
  have hw : 0 < w := by linarith
  obtain ⟨P, hP⟩ : ∃ P : ℚ, P = 4835703278458517 / 2 ^ 82 := ⟨_, rfl⟩
  obtain ⟨K, hK⟩ : ∃ K : ℚ, K = 7215075 / 2 ^ 133 := ⟨_, rfl⟩
  have hPpos : 0 < P := by rw [hP]; norm_num
  obtain ⟨lo, up⟩ := photonEnergy_bounds w P K h0 h1 hP hK
  have hX : (6626 : ℚ) / 10 ^ 37 * (3 * 10 ^ 8 / (w * (1 / 10 ^ 9))) =
      (6626 / 10 ^ 37 * (3 * 10 ^ 8) * 10 ^ 9) / w := by
    field_simp
    ring
  have hU : K * (300000000 / (w * P * (1 - 1 / 2 ^ 53)) * (1 + 1 / 2 ^ 53) * (1 + 1 / 2 ^ 24)) *
        (1 + 1 / 2 ^ 24) =
      (K * (300000000 / (P * (1 - 1 / 2 ^ 53)) * (1 + 1 / 2 ^ 53) * (1 + 1 / 2 ^ 24)) *
        (1 + 1 / 2 ^ 24)) / w :=
    scale_div K 300000000 w P _ _ _ (ne_of_gt hw) (ne_of_gt hPpos) (by norm_num)
  have hL : K * (300000000 / (w * P * (1 + 1 / 2 ^ 53)) * (1 - 1 / 2 ^ 53) * (1 - 1 / 2 ^ 24)) *
        (1 - 1 / 2 ^ 24) =
      (K * (300000000 / (P * (1 + 1 / 2 ^ 53)) * (1 - 1 / 2 ^ 53) * (1 - 1 / 2 ^ 24)) *
        (1 - 1 / 2 ^ 24)) / w :=
    scale_div K 300000000 w P _ _ _ (ne_of_gt hw) (ne_of_gt hPpos) (by norm_num)
  rw [hU] at up
  rw [hL] at lo
  rw [hX, abs_le]
  have cU : K * (300000000 / (P * (1 - 1 / 2 ^ 53)) * (1 + 1 / 2 ^ 53) * (1 + 1 / 2 ^ 24)) *
        (1 + 1 / 2 ^ 24) ≤ (1 + 1 / 10 ^ 6) * (6626 / 10 ^ 37 * (3 * 10 ^ 8) * 10 ^ 9) := by
    rw [hP, hK]; norm_num
  have cL : (1 - 1 / 10 ^ 6) * (6626 / 10 ^ 37 * (3 * 10 ^ 8) * 10 ^ 9) ≤
      K * (300000000 / (P * (1 + 1 / 2 ^ 53)) * (1 - 1 / 2 ^ 53) * (1 - 1 / 2 ^ 24)) *
        (1 - 1 / 2 ^ 24) := by
    rw [hP, hK]; norm_num
  have dU := div_le_div_of_nonneg_right cU (le_of_lt hw)
  have dL := div_le_div_of_nonneg_right cL (le_of_lt hw)
  have eU : (1 + 1 / 10 ^ 6) * (6626 / 10 ^ 37 * (3 * 10 ^ 8) * 10 ^ 9) / w =
      6626 / 10 ^ 37 * (3 * 10 ^ 8) * 10 ^ 9 / w +
        1 / 10 ^ 6 * (6626 / 10 ^ 37 * (3 * 10 ^ 8) * 10 ^ 9 / w) := by ring
  have eL : (1 - 1 / 10 ^ 6) * (6626 / 10 ^ 37 * (3 * 10 ^ 8) * 10 ^ 9) / w =
      6626 / 10 ^ 37 * (3 * 10 ^ 8) * 10 ^ 9 / w -
        1 / 10 ^ 6 * (6626 / 10 ^ 37 * (3 * 10 ^ 8) * 10 ^ 9 / w) := by ring
  rw [eU] at dU
  rw [eL] at dL
  constructor <;> linarith

/-! ### The wavelength bands -/

theorem bound_cases (w : ℚ) :
    get_wave_length_bound w =
      if w ≤ 380 then (0, 380) else if w ≤ 450 then (380, 450) else if w ≤ 485 then (450, 485)
      else if w ≤ 500 then (485, 500) else if w ≤ 565 then (500, 565) else if w ≤ 590 then (565, 590)
      else if w ≤ 625 then (590, 625) else if w ≤ 750 then (625, 750) else (750, 860) := by
  have hr : List.range (kWaveLengths.length - 1) = [0,1,2,3,4,5,6,7,8] := by decide
  unfold get_wave_length_bound
  rw [hr]
  simp only [List.find?_cons, kWaveLengths]
  split_ifs <;> simp [*, List.getD] 
  by_cases h : w ≤ 860 <;> simp [h]

theorem bound_order (w : ℚ) :
    (get_wave_length_bound w).1 < (get_wave_length_bound w).2 := by
  rw [bound_cases]; split_ifs <;> norm_num

theorem bound_bracket (w : ℚ) (h0 : 0 < w) (hw : w ≤ 860) :
    (get_wave_length_bound w).1 < w ∧ w ≤ (get_wave_length_bound w).2 := by
  rw [bound_cases]; split_ifs <;> constructor <;> simp only [] <;> linarith

theorem bound_first (w : ℚ) (hw : w ≤ 860) :
    ∃ i, i < 9 ∧ get_wave_length_bound w = bandAt i ∧ w ≤ (bandAt i).2 ∧
      ∀ j, j < i → ¬ w ≤ (bandAt j).2 := by
  rw [bound_cases]
  split_ifs with h1 h2 h3 h4 h5 h6 h7 h8
  · exact ⟨0, by norm_num, by simp [bandAt, kWaveLengths], by simpa [bandAt, kWaveLengths] using h1,
      fun j hj => by omega⟩
  · exact ⟨1, by norm_num, by simp [bandAt, kWaveLengths], by simpa [bandAt, kWaveLengths] using h2,
      fun j hj => by interval_cases j; simp [bandAt, kWaveLengths]; linarith⟩
  · exact ⟨2, by norm_num, by simp [bandAt, kWaveLengths], by simpa [bandAt, kWaveLengths] using h3,
      fun j hj => by interval_cases j <;> simp [bandAt, kWaveLengths] <;> linarith⟩
  · exact ⟨3, by norm_num, by simp [bandAt, kWaveLengths], by simpa [bandAt, kWaveLengths] using h4,
      fun j hj => by interval_cases j <;> simp [bandAt, kWaveLengths] <;> linarith⟩
  · exact ⟨4, by norm_num, by simp [bandAt, kWaveLengths], by simpa [bandAt, kWaveLengths] using h5,
      fun j hj => by interval_cases j <;> simp [bandAt, kWaveLengths] <;> linarith⟩
  · exact ⟨5, by norm_num, by simp [bandAt, kWaveLengths], by simpa [bandAt, kWaveLengths] using h6,
      fun j hj => by interval_cases j <;> simp [bandAt, kWaveLengths] <;> linarith⟩
  · exact ⟨6, by norm_num, by simp [bandAt, kWaveLengths], by simpa [bandAt, kWaveLengths] using h7,
      fun j hj => by interval_cases j <;> simp [bandAt, kWaveLengths] <;> linarith⟩
  · exact ⟨7, by norm_num, by simp [bandAt, kWaveLengths], by simpa [bandAt, kWaveLengths] using h8,
      fun j hj => by interval_cases j <;> simp [bandAt, kWaveLengths] <;> linarith⟩
  · exact ⟨8, by norm_num, by simp [bandAt, kWaveLengths], by simpa [bandAt, kWaveLengths] using hw,
      fun j hj => by interval_cases j <;> simp [bandAt, kWaveLengths] <;> linarith⟩

/-- C5. The table is strictly ascending; `get_wave_length_bound` returns the first
pair of consecutive breakpoints whose upper end is at least the wavelength, and
the last pair `(750, 860)` when the wavelength is above 860; the pair is always
strictly increasing, it brackets every wavelength in `(0, 860]` as `lo < w ≤ hi`,
and a wavelength equal to a breakpoint falls in the band below it. -/
theorem get_wave_length_bound_first_pair (w : ℚ) :
    kWaveLengths.Pairwise (fun a b => a < b) ∧
    (w ≤ 860 → ∃ i, i < 9 ∧ get_wave_length_bound w = bandAt i ∧ w ≤ (bandAt i).2 ∧
      ∀ j, j < i → ¬ w ≤ (bandAt j).2) ∧
    (860 < w → get_wave_length_bound w = (750, 860)) ∧
    (get_wave_length_bound w).1 < (get_wave_length_bound w).2 ∧
    (0 < w → w ≤ 860 →
      (get_wave_length_bound w).1 < w ∧ w ≤ (get_wave_length_bound w).2) ∧
    get_wave_length_bound 380 = (0, 380) ∧ get_wave_length_bound 450 = (380, 450) := by
  refine ⟨?_, bound_first w, ?_, bound_order w, bound_bracket w, ?_, ?_⟩
  · norm_num [kWaveLengths]
  · intro h
    rw [bound_cases]
    split_ifs <;> first | rfl | (exfalso; linarith)
  · rw [bound_cases]; norm_num
  · rw [bound_cases]; norm_num

/-- Witness for C5 at 470 nm, which lies in the band from 450 to 485. -/
theorem get_wave_length_bound_first_pair_witness :
    (get_wave_length_bound 470).1 < 470 ∧ 470 ≤ (get_wave_length_bound 470).2 :=
  (get_wave_length_bound_first_pair 470).2.2.2.2.1 (by norm_num) (by norm_num)

theorem tdiv_255 (t c : Int) (ht : 0 ≤ t) (hc : 0 ≤ c) :
    Int.tdiv (t * c) 255 = t * c / 255 :=
  Int.tdiv_eq_ediv (Int.mul_nonneg ht hc) (by norm_num)

theorem bandChannels_range (m : ℚ) (t : Int) (h0 : 0 ≤ t) (h1 : t ≤ 255) :
    (0 ≤ (bandChannels m t).1 ∧ (bandChannels m t).1 ≤ 255) ∧
    (0 ≤ (bandChannels m t).2.1 ∧ (bandChannels m t).2.1 ≤ 255) ∧
    (0 ≤ (bandChannels m t).2.2 ∧ (bandChannels m t).2.2 ≤ 255) := by
  have e220 := tdiv_255 t 220 h0 (by norm_num)
  have e180 := tdiv_255 t 180 h0 (by norm_num)
  have e100 := tdiv_255 t 100 h0 (by norm_num)
  have e75 := tdiv_255 t 75 h0 (by norm_num)
  have e60 := tdiv_255 t 60 h0 (by norm_num)
  have e55 := tdiv_255 t 55 h0 (by norm_num)
  have e30 := tdiv_255 t 30 h0 (by norm_num)
  have e25 := tdiv_255 t 25 h0 (by norm_num)
  have e20 := tdiv_255 t 20 h0 (by norm_num)
  have e15 := tdiv_255 t 15 h0 (by norm_num)
  unfold bandChannels
  split_ifs <;> simp only [e220, e180, e100, e75, e60, e55, e30, e25, e20, e15] <;> omega

theorem varColorValue_range (w : ℚ) (hlo : 200 ≤ w) (hhi : w ≤ 860) :
    0 ≤ varColorValue w ∧ varColorValue w ≤ 255 := by
  obtain ⟨h1, h2⟩ := bound_bracket w (by linarith) hhi
  have h3 := bound_order w
  unfold varColorValue
  simp only []
  have hd : 0 < (get_wave_length_bound w).2 - (get_wave_length_bound w).1 := by linarith
  constructor
  · apply div_nonneg
    · nlinarith
    · linarith
  · rw [div_le_iff₀ hd]
    nlinarith

theorem truncate_range (q : ℚ) (h0 : 0 ≤ q) (h1 : q ≤ 255) :
    0 ≤ truncate q ∧ truncate q ≤ 255 := by
  unfold truncate
  rw [if_pos h0]
  constructor
  · exact Int.floor_nonneg.mpr h0
  · have : (⌊q⌋ : ℚ) ≤ 255 := le_trans (Int.floor_le q) h1
    exact_mod_cast this

/-- C3. For a wavelength in `[200, 860]` the interpolation factor, truncated to an
integer, lies in `[0, 255]` before it is stored in the `uint8_t` (so the store
does not change it), the value the selected band formula computes for each of
red, green and blue lies in `[0, 255]` before it is stored in its channel, and the
returned colour has exactly these values as its channels. -/
theorem GetWaveColor_channels_in_range (w : ℚ) (hlo : 200 ≤ w) (hhi : w ≤ 860) :
    (0 ≤ truncate (varColorValue w) ∧ truncate (varColorValue w) ≤ 255) ∧
    var_color w = truncate (varColorValue w) ∧
    (0 ≤ (bandChannels (get_wave_length_bound w).1 (var_color w)).1 ∧
      (bandChannels (get_wave_length_bound w).1 (var_color w)).1 ≤ 255) ∧
    (0 ≤ (bandChannels (get_wave_length_bound w).1 (var_color w)).2.1 ∧
      (bandChannels (get_wave_length_bound w).1 (var_color w)).2.1 ≤ 255) ∧
    (0 ≤ (bandChannels (get_wave_length_bound w).1 (var_color w)).2.2 ∧
      (bandChannels (get_wave_length_bound w).1 (var_color w)).2.2 ≤ 255) ∧
    GetWaveColor w =
      ⟨(bandChannels (get_wave_length_bound w).1 (var_color w)).1,
       (bandChannels (get_wave_length_bound w).1 (var_color w)).2.1,
       (bandChannels (get_wave_length_bound w).1 (var_color w)).2.2⟩ ∧
    (0 ≤ (GetWaveColor w).r ∧ (GetWaveColor w).r ≤ 255) ∧
    (0 ≤ (GetWaveColor w).g ∧ (GetWaveColor w).g ≤ 255) ∧
    (0 ≤ (GetWaveColor w).b ∧ (GetWaveColor w).b ≤ 255) := by
  obtain ⟨hv0, hv1⟩ := varColorValue_range w hlo hhi
  obtain ⟨ht0, ht1⟩ := truncate_range _ hv0 hv1
  have hvc : var_color w = truncate (varColorValue w) := by
    unfold var_color toUint8; omega
  obtain ⟨⟨r0, r1⟩, ⟨g0, g1⟩, ⟨b0, b1⟩⟩ :=
    bandChannels_range (get_wave_length_bound w).1 (var_color w)
      (by rw [hvc]; exact ht0) (by rw [hvc]; exact ht1)
  have hcol : GetWaveColor w =
      ⟨(bandChannels (get_wave_length_bound w).1 (var_color w)).1,
       (bandChannels (get_wave_length_bound w).1 (var_color w)).2.1,
       (bandChannels (get_wave_length_bound w).1 (var_color w)).2.2⟩ := by
    unfold GetWaveColor bandColor toUint8
    simp only []
    congr 1 <;> omega
  refine ⟨⟨ht0, ht1⟩, hvc, ⟨r0, r1⟩, ⟨g0, g1⟩, ⟨b0, b1⟩, hcol, ?_, ?_, ?_⟩ <;>
    rw [hcol] <;> constructor <;> assumption

/-- Witness for C3 at the wavelength 520 nm. -/
theorem GetWaveColor_channels_in_range_witness :
    (200 : ℚ) ≤ 520 ∧ (520 : ℚ) ≤ 860 ∧
    (0 ≤ (GetWaveColor 520).r ∧ (GetWaveColor 520).r ≤ 255) ∧
    (0 ≤ (GetWaveColor 520).g ∧ (GetWaveColor 520).g ≤ 255) ∧
    (0 ≤ (GetWaveColor 520).b ∧ (GetWaveColor 520).b ≤ 255) :=
  ⟨by norm_num, by norm_num,
    (GetWaveColor_channels_in_range 520 (by norm_num) (by norm_num)).2.2.2.2.2.2⟩

theorem GetWaveColor_of_le_380 (w : ℚ) (h : w ≤ 380) : GetWaveColor w = ⟨220, 0, 255⟩ := by
  unfold GetWaveColor bandColor
  rw [bound_cases, if_pos h]
  simp [bandChannels, toUint8]

theorem GetWaveColor_of_gt_750 (w : ℚ) (h : 750 < w) : GetWaveColor w = ⟨255, 0, 0⟩ := by
  have hb : get_wave_length_bound w = (750, 860) := by
    rw [bound_cases]
    repeat rw [if_neg (by linarith)]
  unfold GetWaveColor bandColor
  rw [hb]
  norm_num [bandChannels, toUint8]

/-- C10. `GetWaveColor` returns `(220, 0, 255)` for every wavelength up to 380 and
`(255, 0, 0)` for every wavelength above 750; the formulas of these two bands
yield the same colour for every value of the interpolation factor, including the
values outside `[0, 255]` that the factor expression takes for wavelengths below
0 and above 860. -/
theorem GetWaveColor_outer_bands (w : ℚ) :
    (w ≤ 380 → GetWaveColor w = ⟨220, 0, 255⟩) ∧
    (750 < w → GetWaveColor w = ⟨255, 0, 0⟩) ∧
    (∀ t : Int, bandColor 0 t = ⟨220, 0, 255⟩) ∧
    (∀ t : Int, bandColor 750 t = ⟨255, 0, 0⟩) ∧
    (w < 0 → varColorValue w < 0) ∧
    (860 < w → 255 < varColorValue w) := by
  refine ⟨GetWaveColor_of_le_380 w, GetWaveColor_of_gt_750 w, ?_, ?_, ?_, ?_⟩
  · intro t; norm_num [bandColor, bandChannels, toUint8]
  · intro t; norm_num [bandColor, bandChannels, toUint8]
  · intro h
    unfold varColorValue
    rw [bound_cases, if_pos (by linarith)]
    norm_num
    linarith
  · intro h
    unfold varColorValue
    rw [bound_cases]
    repeat rw [if_neg (by linarith)]
    norm_num
    rw [lt_div_iff₀ (by norm_num)]
    linarith

/-- Witness for C10: the wavelengths 200 and 380 of the first band map to the same
colour, as do 800 and the out-of-table wavelength 1000. -/
theorem GetWaveColor_outer_bands_witness :
    GetWaveColor 200 = ⟨220, 0, 255⟩ ∧ GetWaveColor 380 = ⟨220, 0, 255⟩ ∧
    GetWaveColor 800 = ⟨255, 0, 0⟩ ∧ GetWaveColor 1000 = ⟨255, 0, 0⟩ ∧
    255 < varColorValue 1000 :=
  ⟨(GetWaveColor_outer_bands 200).1 (by norm_num),
   (GetWaveColor_outer_bands 380).1 (by norm_num),
   (GetWaveColor_outer_bands 800).2.1 (by norm_num),
   (GetWaveColor_outer_bands 1000).2.1 (by norm_num),
   (GetWaveColor_outer_bands 1000).2.2.2.2.2 (by norm_num)⟩

theorem bandColor_values :
    bandColor 0 255 = ⟨220, 0, 255⟩ ∧ bandColor 380 0 = ⟨220, 0, 255⟩ ∧
    bandColor 380 255 = ⟨0, 0, 255⟩ ∧ bandColor 450 0 = ⟨0, 0, 255⟩ ∧
    bandColor 450 255 = ⟨0, 180, 255⟩ ∧ bandColor 485 0 = ⟨0, 180, 255⟩ ∧
    bandColor 485 255 = ⟨0, 240, 180⟩ ∧ bandColor 500 0 = ⟨0, 240, 185⟩ ∧
    bandColor 500 255 = ⟨180, 255, 110⟩ ∧ bandColor 565 0 = ⟨200, 255, 75⟩ ∧
    bandColor 565 255 = ⟨255, 230, 0⟩ ∧ bandColor 590 0 = ⟨245, 210, 0⟩ ∧
    bandColor 590 255 = ⟨225, 110, 0⟩ ∧ bandColor 625 0 = ⟨225, 110, 0⟩ ∧
    bandColor 625 255 = ⟨255, 10, 0⟩ ∧ bandColor 750 0 = ⟨255, 0, 0⟩ := by
  refine ⟨?_, ?_, ?_, ?_, ?_, ?_, ?_, ?_, ?_, ?_, ?_, ?_, ?_, ?_, ?_, ?_⟩ <;>
    norm_num [bandColor, bandChannels, toUint8, Int.tdiv]

theorem bandAt_values :
    bandAt 0 = (0, 380) ∧ bandAt 1 = (380, 450) ∧ bandAt 2 = (450, 485) ∧
    bandAt 3 = (485, 500) ∧ bandAt 4 = (500, 565) ∧ bandAt 5 = (565, 590) ∧
    bandAt 6 = (590, 625) ∧ bandAt 7 = (625, 750) ∧ bandAt 8 = (750, 860) := by
  simp [bandAt, kWaveLengths]

/-- C4, counterexample. At the breakpoint 500 the band `[485, 500]` ends (factor
255) with blue 180 while the band `[500, 565]` starts (factor 0) with blue 185;
the wavelengths 500 and 500.1 show the two colours. -/
theorem GetWaveColor_jump_at_500 :
    bandAt 3 = (485, 500) ∧ bandAt 4 = (500, 565) ∧
    bandColor (bandAt 3).1 255 = ⟨0, 240, 180⟩ ∧
    bandColor (bandAt 4).1 0 = ⟨0, 240, 185⟩ ∧
    bandColor (bandAt 3).1 255 ≠ bandColor (bandAt 4).1 0 ∧
    GetWaveColor 500 = ⟨0, 240, 180⟩ ∧ var_color 500 = 255 ∧
    GetWaveColor (5001 / 10) = ⟨0, 240, 185⟩ ∧ var_color (5001 / 10) = 0 := by
  obtain ⟨_, _, _, h3, h4, _⟩ := bandAt_values
  obtain ⟨_, _, _, _, _, _, c3, c4, _⟩ := bandColor_values
  have v500 : var_color 500 = 255 := by
    unfold var_color varColorValue
    rw [bound_cases]
    norm_num [truncate, toUint8]
  have v5001 : var_color (5001 / 10) = 0 := by
    unfold var_color varColorValue
    rw [bound_cases]
    norm_num [truncate, toUint8]
  refine ⟨h3, h4, ?_, ?_, ?_, ?_, v500, ?_, v5001⟩
  · rw [h3]; exact c3
  · rw [h4]; exact c4
  · rw [h3, h4, c3, c4]; decide
  · unfold GetWaveColor
    rw [v500, bound_cases]
    norm_num [c3]
  · unfold GetWaveColor
    rw [v5001, bound_cases]
    norm_num [c4]

/-- C4, amended. Of the eight breakpoints between adjacent bands, the colour of the
lower band at factor 255 equals the colour of the upper band at factor 0 exactly
at 380, 450, 485 and 625 (band positions 0, 1, 2 and 6).  At the other four the
two colours differ: at 500 they are `(0, 240, 180)` and `(0, 240, 185)`, at 565
`(180, 255, 110)` and `(200, 255, 75)`, at 590 `(255, 230, 0)` and
`(245, 210, 0)`, at 750 `(255, 10, 0)` and `(255, 0, 0)`. -/
theorem GetWaveColor_breakpoint_continuity (i : Nat) (hi : i < 8) :
    (bandColor (bandAt i).1 255 = bandColor (bandAt (i + 1)).1 0 ↔
      (i = 0 ∨ i = 1 ∨ i = 2 ∨ i = 6)) ∧
    ((bandAt 0).2 = 380 ∧ (bandAt 1).2 = 450 ∧ (bandAt 2).2 = 485 ∧ (bandAt 6).2 = 625) ∧
    ((bandAt 3).2 = 500 ∧ bandColor (bandAt 3).1 255 = ⟨0, 240, 180⟩ ∧
      bandColor (bandAt 4).1 0 = ⟨0, 240, 185⟩) ∧
    ((bandAt 4).2 = 565 ∧ bandColor (bandAt 4).1 255 = ⟨180, 255, 110⟩ ∧
      bandColor (bandAt 5).1 0 = ⟨200, 255, 75⟩) ∧
    ((bandAt 5).2 = 590 ∧ bandColor (bandAt 5).1 255 = ⟨255, 230, 0⟩ ∧
      bandColor (bandAt 6).1 0 = ⟨245, 210, 0⟩) ∧
    ((bandAt 7).2 = 750 ∧ bandColor (bandAt 7).1 255 = ⟨255, 10, 0⟩ ∧
      bandColor (bandAt 8).1 0 = ⟨255, 0, 0⟩) := by
  obtain ⟨b0, b1, b2, b3, b4, b5, b6, b7, b8⟩ := bandAt_values
  obtain ⟨c0, d0, c1, d1, c2, d2, c3, d3, c4, d4, c5, d5, c6, d6, c7, d7⟩ := bandColor_values
  refine ⟨?_, ⟨by rw [b0], by rw [b1], by rw [b2], by rw [b6]⟩,
    ⟨by rw [b3], by rw [b3]; exact c3, by rw [b4]; exact d3⟩,
    ⟨by rw [b4], by rw [b4]; exact c4, by rw [b5]; exact d4⟩,
    ⟨by rw [b5], by rw [b5]; exact c5, by rw [b6]; exact d5⟩,
    ⟨by rw [b7], by rw [b7]; exact c7, by rw [b8]; exact d7⟩⟩
  interval_cases i
  · simp only [b0, b1, c0, d0]; simp
  · simp only [b1, b2, c1, d1]; simp
  · simp only [b2, b3, c2, d2]; simp
  · simp only [b3, b4, c3, d3]; simp
  · simp only [b4, b5, c4, d4]; simp
  · simp only [b5, b6, c5, d5]; simp
  · simp only [b6, b7, c6, d6]; simp
  · simp only [b7, b8, c7, d7]; simp

/-- Witness for the amended C4 at the breakpoint 380 (band position 0). -/
theorem GetWaveColor_breakpoint_continuity_witness :
    bandColor (bandAt 0).1 255 = bandColor (bandAt (0 + 1)).1 0 :=
  (GetWaveColor_breakpoint_continuity 0 (by norm_num)).1.mpr (Or.inl rfl)

theorem sampleSqrt_pos (x : ℚ) (hx : 0 < x) : 0 < sampleSqrt x := by
  unfold sampleSqrt
  have hnum : 0 < x.num := Rat.num_pos.mpr hx
  have hn : 0 < x.num.toNat := by omega
  have hd : 0 < x.den := x.den_pos
  have hprod : 0 < x.num.toNat * x.den * 4 ^ 64 := by positivity
  have hs : 0 < Nat.sqrt (x.num.toNat * x.den * 4 ^ 64) := Nat.sqrt_pos.mpr hprod
  have hs2 : (0 : ℚ) < (Nat.sqrt (x.num.toNat * x.den * 4 ^ 64) : ℚ) := by exact_mod_cast hs
  have hd2 : (0 : ℚ) < (x.den : ℚ) := by exact_mod_cast hd
  positivity

/-- The electrons one photon contributes in the collision loop. -/
theorem collideOne_eq (lib : Library) (sizes : VideoMode) (f : Frame)
    (electrons : List Electron) (p : Photon) :
    collideOne lib sizes f electrons p =
      electrons ++
        (if lib.intersects p (cathodeBounds sizes) = true ∧ 0 < residualEnergy f p then
          [newElectron lib p (residualEnergy f p)] else []) := by
  unfold collideOne
  by_cases h1 : lib.intersects p (cathodeBounds sizes) = true
  · by_cases h2 : 0 < residualEnergy f p
    · simp [h1, h2]
    · simp [h1, h2]
  · simp [h1]

theorem collide_eq (lib : Library) (sizes : VideoMode) (f : Frame)
    (photons : List Photon) (electrons : List Electron) :
    collide lib sizes f photons electrons =
      electrons ++ photons.flatMap (fun p =>
        if lib.intersects p (cathodeBounds sizes) = true ∧ 0 < residualEnergy f p then
          [newElectron lib p (residualEnergy f p)] else []) := by
  unfold collide
  induction photons generalizing electrons with
  | nil => simp
  | cons p ps ih =>
    rw [List.foldl_cons, ih, collideOne_eq]
    simp [List.append_assoc]

theorem residualEnergy_of (f : Frame) (p : Photon) (ke sv wf : ℚ)
    (hk : p.kinetic_energy_ = ke) (hv : f.stopping_voltage = sv)
    (hw : f.current_metal.work_func_ = wf) :
    residualEnergy f p =
      toFloat (toDouble (toDouble (ke - toFloat (sv * kElectronCharge)) - wf)) := by
  unfold residualEnergy Photon.GetKinteticEnegery Metal.GetWorkFunc
  rw [hk, hv, hw]

theorem collide_singleton_none (lib : Library) (sizes : VideoMode) (f : Frame)
    (p : Photon) (electrons : List Electron) (h : ¬ 0 < residualEnergy f p) :
    collide lib sizes f [p] electrons = electrons := by
  rw [collide_eq]
  simp [h]

theorem collide_singleton_one (lib : Library) (sizes : VideoMode) (f : Frame)
    (p : Photon) (electrons : List Electron) (h : 0 < residualEnergy f p)
    (hhit : lib.intersects p (cathodeBounds sizes) = true) :
    collide lib sizes f [p] electrons =
      electrons ++ [newElectron lib p (residualEnergy f p)] := by
  rw [collide_eq]
  simp [h, hhit]

/-- The rounding decides the branch: for magnesium, the stopping voltage `0.1f`
and a photon spawned at the `float` wavelength nearest `328.0198059` the residual
is exactly zero, so no electron is created; for zinc, `-0.6f` and the wavelength
nearest `335.2107849` the residual is `2 ^ -87`, so an intersecting photon yields
one electron. -/
theorem residualEnergy_rounding_cases (lib : Library) (sizes : VideoMode) (offset : ℚ)
    (electrons : List Electron) :
    (newPhoton sizes (toFloat 328.0198059) offset).kinetic_energy_ = 11721745 / 2 ^ 84 ∧
    residualEnergy sampleMagnesiumFrame (newPhoton sizes (toFloat 328.0198059) offset) = 0 ∧
    collide lib sizes sampleMagnesiumFrame [newPhoton sizes (toFloat 328.0198059) offset]
      electrons = electrons ∧
    (newPhoton sizes (toFloat 335.2107849) offset).kinetic_energy_ = 716893 / 2 ^ 80 ∧
    residualEnergy sampleZincFrame (newPhoton sizes (toFloat 335.2107849) offset)
      = 1 / 2 ^ 87 ∧
    (lib.intersects (newPhoton sizes (toFloat 335.2107849) offset) (cathodeBounds sizes)
        = true →
      collide lib sizes sampleZincFrame [newPhoton sizes (toFloat 335.2107849) offset]
        electrons =
        electrons ++ [newElectron lib (newPhoton sizes (toFloat 335.2107849) offset)
          (1 / 2 ^ 87)]) := by
  have e1 : (newPhoton sizes (toFloat 328.0198059) offset).kinetic_energy_
      = 11721745 / 2 ^ 84 := by
    show photonEnergy (toFloat 328.0198059) = _
    rw [toFloat_wave328]
    exact photonEnergy_328
  have e2 : (newPhoton sizes (toFloat 335.2107849) offset).kinetic_energy_
      = 716893 / 2 ^ 80 := by
    show photonEnergy (toFloat 335.2107849) = _
    rw [toFloat_wave335]
    exact photonEnergy_335
  have r1 : residualEnergy sampleMagnesiumFrame
      (newPhoton sizes (toFloat 328.0198059) offset) = 0 := by
    rw [residualEnergy_of sampleMagnesiumFrame _ (11721745 / 2 ^ 84) (13421773 / 2 ^ 27)
      (2853065 / 2 ^ 82) e1 toFloat_tenth magnesium_work_func, kElectronCharge_eq]
    exact residual_magnesium
  have r2 : residualEnergy sampleZincFrame
      (newPhoton sizes (toFloat 335.2107849) offset) = 1 / 2 ^ 87 := by
    rw [residualEnergy_of sampleZincFrame _ (716893 / 2 ^ 80) (-5033165 / 2 ^ 23)
      (6663599 / 2 ^ 83) e2 toFloat_neg_six_tenths zinc_work_func, kElectronCharge_eq]
    exact residual_zinc
  refine ⟨e1, r1, collide_singleton_none lib sizes _ _ electrons (by rw [r1]; norm_num),
    e2, r2, ?_⟩
  intro hhit
  have h := collide_singleton_one lib sizes sampleZincFrame _ electrons
    (by rw [r2]; norm_num) hhit
  rw [r2] at h
  exact h

/-! ### The spawn interval -/

/-- C9. The spawn test evaluates `0.1 / intensity` unconditionally.  For an
intensity in `(0, 1]` the divisor is non-zero and the quotient is an interval of
at least `0.1` that does not grow when the intensity grows; for the intensity 0,
which the admissible range contains, the divisor is zero. -/
theorem spawnInterval_division (i : ℚ) :
    (∀ (sizes : VideoMode) (f : Frame) (photons : List Photon),
      spawn sizes f photons =
        if exceeds f.create_elapsed (fdiv 0.1 f.intensity) = true then
          photons ++ [newPhoton sizes (clamp f.wave_length 200 860) f.offset]
        else photons) ∧
    (0 < i → i ≤ 1 →
      spawnInterval i = FloatQuotient.value (0.1 / i) ∧ 0 < 0.1 / i ∧ 0.1 ≤ 0.1 / i ∧
      ∀ j : ℚ, i ≤ j → j ≤ 1 →
        spawnInterval j = FloatQuotient.value (0.1 / j) ∧ 0.1 / j ≤ 0.1 / i) ∧
    spawnInterval 0 = FloatQuotient.divisionByZero ∧
    (∀ f : Frame, f.intensity = 0 → spawnInterval f.intensity = FloatQuotient.divisionByZero) ∧
    (sampleFrame.admissible ∧ sampleFrame.intensity = 0) := by
  refine ⟨fun _ _ _ => rfl, ?_, ?_, ?_, ?_⟩
  · intro h0 h1
    have hv : ∀ j : ℚ, 0 < j → spawnInterval j = FloatQuotient.value (0.1 / j) := by
      intro j hj
      unfold spawnInterval fdiv
      rw [if_neg (ne_of_gt hj)]
    refine ⟨hv i h0, by positivity, ?_, ?_⟩
    · rw [le_div_iff₀ h0]
      nlinarith
    · intro j hij hj
      refine ⟨hv j (lt_of_lt_of_le h0 hij), ?_⟩
      exact div_le_div_of_nonneg_left (by norm_num) h0 hij
  · simp [spawnInterval, fdiv]
  · intro f hf
    simp [spawnInterval, fdiv, hf]
  · refine ⟨?_, rfl⟩
    unfold Frame.admissible sampleFrame
    refine ⟨by norm_num, by norm_num, by norm_num, by norm_num, ?_⟩
    simp [metals]

/-- Witness for C9 at the intensities 1/2 and 1: the intervals are 0.2 and 0.1. -/
theorem spawnInterval_division_witness :
    spawnInterval (1 / 2) = FloatQuotient.value (0.1 / (1 / 2)) ∧
    (0.1 : ℚ) / 1 ≤ 0.1 / (1 / 2) := by
  have h := (spawnInterval_division (1 / 2)).2.1 (by norm_num) (by norm_num)
  exact ⟨h.1, (h.2.2.2 1 (by norm_num) (by norm_num)).2⟩

/-! ### Facts about one frame -/

theorem Update_fields (p : Photon) (dt : ℚ) :
    (p.Update dt).kinetic_energy_ = p.kinetic_energy_ ∧
    (p.Update dt).speed_ = p.speed_ ∧
    (p.Update dt).radius = p.radius ∧
    (p.Update dt).fillColor = p.fillColor ∧
    (p.Update dt).position =
      ⟨p.position.x + p.speed_.x * dt, p.position.y + p.speed_.y * dt⟩ :=
  ⟨rfl, rfl, rfl, rfl, rfl⟩

theorem Update_zero (p : Photon) : p.Update 0 = p := by
  cases p with
  | mk ke sp pos r c =>
    cases pos
    simp [Photon.Update, Photon.SetPosition]

theorem map_Update_zero (l : List Photon) : l.map (fun p => p.Update 0) = l := by
  induction l with
  | nil => rfl
  | cons p ps ih => simp [Update_zero]

theorem spawn_cases (sizes : VideoMode) (f : Frame) (photons : List Photon) :
    ∃ spawned : List Photon,
      (spawned = [] ∨ spawned = [newPhoton sizes (clamp f.wave_length 200 860) f.offset]) ∧
      spawn sizes f photons = photons ++ spawned := by
  unfold spawn
  by_cases h : exceeds f.create_elapsed (spawnInterval f.intensity) = true
  · exact ⟨_, Or.inr rfl, by rw [if_pos h]⟩
  · exact ⟨[], Or.inl rfl, by rw [if_neg h]; simp⟩

theorem clamp_range (v : ℚ) : 200 ≤ clamp v 200 860 ∧ clamp v 200 860 ≤ 860 := by
  unfold clamp
  split_ifs <;> constructor <;> linarith

theorem clamp_id (w : ℚ) (h0 : 200 ≤ w) (h1 : w ≤ 860) : clamp w 200 860 = w := by
  unfold clamp
  rw [if_neg (not_lt.mpr h0), if_neg (not_lt.mpr h1)]

theorem newPhoton_energy (sizes : VideoMode) (w offset : ℚ) :
    (newPhoton sizes w offset).kinetic_energy_ = photonEnergy w := rfl

/-! ### The photon list -/

theorem frameStep_photons (lib : Library) (sizes : VideoMode) (s : State) (f : Frame) :
    (frameStep lib sizes s f).photons =
      (erase_if (spawn sizes f s.photons) (photonTerminated lib sizes)).map
        (fun p => p.Update f.elapsed) := rfl

theorem frameStep_electrons (lib : Library) (sizes : VideoMode) (s : State) (f : Frame) :
    (frameStep lib sizes s f).electrons =
      (erase_if (collide lib sizes f (spawn sizes f s.photons) s.electrons)
        (electronTerminated lib sizes)).map (fun e => e.Update f.elapsed) := rfl

theorem frameStep_energy (lib : Library) (sizes : VideoMode) (s : State) (f : Frame)
    (h : EnergyFromWavelength s.photons) :
    EnergyFromWavelength (frameStep lib sizes s f).photons := by
  intro q hq
  rw [frameStep_photons] at hq
  obtain ⟨p, hp, rfl⟩ := List.mem_map.mp hq
  have hp2 : p ∈ spawn sizes f s.photons := (List.mem_filter.mp hp).1
  obtain ⟨spawned, hs, he⟩ := spawn_cases sizes f s.photons
  rw [he] at hp2
  rw [(Update_fields p f.elapsed).1]
  rcases List.mem_append.mp hp2 with hold | hnew
  · exact h p hold
  · rcases hs with hs | hs
    · rw [hs] at hnew; simp at hnew
    · rw [hs] at hnew
      rw [List.mem_singleton.mp hnew]
      exact ⟨clamp f.wave_length 200 860, (clamp_range _).1, (clamp_range _).2,
        newPhoton_energy _ _ _⟩

theorem foldl_frameStep_energy (lib : Library) (sizes : VideoMode) (frames : List Frame) :
    ∀ s : State, EnergyFromWavelength s.photons →
      EnergyFromWavelength (frames.foldl (frameStep lib sizes) s).photons := by
  induction frames with
  | nil => intro s h; exact h
  | cons f fs ih =>
    intro s h
    rw [List.foldl_cons]
    exact ih _ (frameStep_energy lib sizes s f h)

/-- C2, amended. A spawned photon gets the kinetic energy the code computes in
floating point for the clamped wavelength `w`: `w * 1e-9` and the quotient of the
light speed by it in `double`, the frequency stored in a `float`, and the `float`
product with the Planck constant, itself the `float` nearest `6.626e-34`; the light
speed is `3e8`.  The clamped wavelength lies in `[200, 860]` and is the setting
itself when that is in range.  A frame step keeps the kinetic energy of every
photon that stays in the list, so in every state the loop reaches each photon
still has the energy computed for a wavelength in `[200, 860]`.  For 500 nm the
frequency is `600000019038208` and the energy `7689929 / 2 ^ 84`, about
`3.9756001e-19` and within `2e-26` of `3.9756e-19`; for every wavelength in
`[200, 860]` the energy differs from `6.626e-34 * (3e8 / (w * 1e-9))` by at most
one millionth of it. -/
theorem photon_energy_from_wavelength (lib : Library) (sizes : VideoMode)
    (frames : List Frame) :
    (kPlankContant = 7215075 / 2 ^ 133 ∧ |kPlankContant - 6626 / 10 ^ 37| < 1 / 10 ^ 41 ∧
      kLightSpeed = 3 * 10 ^ 8) ∧
    (∀ w offset : ℚ, (newPhoton sizes w offset).kinetic_energy_ =
      toFloat (kPlankContant *
        toFloat (toDouble (kLightSpeed / toDouble (w * pow10 (-9)))))) ∧
    (∀ (f : Frame) (photons : List Photon),
      spawn sizes f photons = photons ∨
      spawn sizes f photons =
        photons ++ [newPhoton sizes (clamp f.wave_length 200 860) f.offset]) ∧
    (∀ v : ℚ, 200 ≤ clamp v 200 860 ∧ clamp v 200 860 ≤ 860) ∧
    (∀ w : ℚ, 200 ≤ w → w ≤ 860 → clamp w 200 860 = w) ∧
    (∀ (p : Photon) (dt : ℚ), (p.Update dt).kinetic_energy_ = p.kinetic_energy_) ∧
    (∀ (s : State) (f : Frame),
      (frameStep lib sizes s f).photons.map Photon.GetKinteticEnegery =
        (erase_if (spawn sizes f s.photons) (photonTerminated lib sizes)).map
          Photon.GetKinteticEnegery) ∧
    EnergyFromWavelength (run lib sizes frames).photons ∧
    (photonFrequency 500 = 600000019038208 ∧
      |photonFrequency 500 - 6 * 10 ^ 14| < 2 * 10 ^ 7) ∧
    (∀ offset : ℚ, (newPhoton sizes 500 offset).kinetic_energy_ = 7689929 / 2 ^ 84) ∧
    (∀ offset : ℚ,
      |(newPhoton sizes 500 offset).kinetic_energy_ - 39756 / 10 ^ 23| < 2 / 10 ^ 26) ∧
    (∀ w offset : ℚ, 200 ≤ w → w ≤ 860 →
      |(newPhoton sizes w offset).kinetic_energy_ -
          6626 / 10 ^ 37 * (3 * 10 ^ 8 / (w * (1 / 10 ^ 9)))| ≤
        1 / 10 ^ 6 * (6626 / 10 ^ 37 * (3 * 10 ^ 8 / (w * (1 / 10 ^ 9))))) := by
  refine ⟨⟨kPlankContant_eq, ?_, by norm_num [kLightSpeed]⟩, fun w offset => rfl,
    ?_, clamp_range, clamp_id, fun p dt => rfl, ?_, ?_, ⟨photonFrequency_500, ?_⟩,
    fun offset => photonEnergy_500, ?_,
    fun w offset h0 h1 => photonEnergy_accuracy w h0 h1⟩
  · rw [kPlankContant_eq, abs_lt]; constructor <;> norm_num
  · intro f photons
    obtain ⟨spawned, hs, he⟩ := spawn_cases sizes f photons
    rcases hs with hs | hs
    · left; rw [he, hs]; simp
    · right; rw [he, hs]
  · intro s f
    rw [frameStep_photons, List.map_map]
    rfl
  · exact foldl_frameStep_energy lib sizes frames State.initial
      (fun p hp => by simp [State.initial] at hp)
  · rw [photonFrequency_500, abs_lt]; constructor <;> norm_num
  · intro offset
    rw [newPhoton_energy, photonEnergy_500, abs_lt]; constructor <;> norm_num

/-- Witness for C2: after one frame that spawns at 500 nm, the single photon of the
list carries the energy computed for a wavelength in `[200, 860]`. -/
theorem photon_energy_from_wavelength_witness :
    EnergyFromWavelength (run sampleLibrary sampleSizes [sampleSpawnFrame]).photons ∧
    (newPhoton sampleSizes 500 0).kinetic_energy_ = 7689929 / 2 ^ 84 :=
  ⟨(photon_energy_from_wavelength sampleLibrary sampleSizes [sampleSpawnFrame]).2.2.2.2.2.2.2.1,
   (photon_energy_from_wavelength sampleLibrary sampleSizes []).2.2.2.2.2.2.2.2.2.1 0⟩

/-- C2, counterexample. At 500 nm the spawned photon has the energy
`7689929 / 2 ^ 84`, not `6.626e-34 * (3e8 / (500 * 1e-9)) = 3.9756e-19`; the
frequency is `600000019038208`, not `6e14`, and the Planck constant of the code is
not `6.626e-34`. -/
theorem photon_energy_500_rounded :
    clamp 500 200 860 = 500 ∧
    (newPhoton sampleSizes 500 0).kinetic_energy_ = 7689929 / 2 ^ 84 ∧
    (newPhoton sampleSizes 500 0).kinetic_energy_ ≠
      6626 / 10 ^ 37 * (3 * 10 ^ 8 / (500 * (1 / 10 ^ 9))) ∧
    (newPhoton sampleSizes 500 0).kinetic_energy_ ≠ 39756 / 10 ^ 23 ∧
    photonFrequency 500 = 600000019038208 ∧ photonFrequency 500 ≠ 6 * 10 ^ 14 ∧
    kPlankContant ≠ 6626 / 10 ^ 37 := by
  have he : (newPhoton sampleSizes 500 0).kinetic_energy_ = 7689929 / 2 ^ 84 :=
    photonEnergy_500
  refine ⟨clamp_id 500 (by norm_num) (by norm_num), he, ?_, ?_, photonFrequency_500, ?_, ?_⟩
  · rw [he]; norm_num
  · rw [he]; norm_num
  · rw [photonFrequency_500]; norm_num
  · rw [kPlankContant_eq]; norm_num

/-- C6. After a frame step the photon list is the list evaluated by the collision
loop (the previous list followed by at most one freshly spawned photon) without
the photons that intersect the cathode, in the same order, each with its position
advanced by velocity times `elapsed` and nothing else changed.  The collision
loop handles each photon of that list once, and the list the next frame evaluates
consists of these survivors and at most one fresh photon. -/
theorem frameStep_photon_list (lib : Library) (sizes : VideoMode) (s : State) (f : Frame) :
    ∃ spawned : List Photon,
      (spawned = [] ∨ spawned = [newPhoton sizes (clamp f.wave_length 200 860) f.offset]) ∧
      spawn sizes f s.photons = s.photons ++ spawned ∧
      (frameStep lib sizes s f).photons =
        ((s.photons ++ spawned).filter
          (fun p => !lib.intersects p (cathodeBounds sizes))).map
          (fun p => { p with position :=
            ⟨p.position.x + p.speed_.x * f.elapsed, p.position.y + p.speed_.y * f.elapsed⟩ }) ∧
      (frameStep lib sizes s f).photons.length =
        ((s.photons ++ spawned).filter
          (fun p => !lib.intersects p (cathodeBounds sizes))).length ∧
      (frameStep lib sizes s f).photons.length +
          ((s.photons ++ spawned).filter
            (fun p => lib.intersects p (cathodeBounds sizes))).length =
        (s.photons ++ spawned).length ∧
      (frameStep lib sizes s f).electrons =
        (erase_if
          (s.electrons ++ (s.photons ++ spawned).flatMap (fun p =>
            if lib.intersects p (cathodeBounds sizes) = true ∧ 0 < residualEnergy f p then
              [newElectron lib p (residualEnergy f p)] else []))
          (electronTerminated lib sizes)).map (fun e => e.Update f.elapsed) ∧
      (∀ g : Frame, ∃ fresh : List Photon,
        (fresh = [] ∨ fresh = [newPhoton sizes (clamp g.wave_length 200 860) g.offset]) ∧
        spawn sizes g (frameStep lib sizes s f).photons =
          ((s.photons ++ spawned).filter
            (fun p => !lib.intersects p (cathodeBounds sizes))).map
            (fun p => p.Update f.elapsed) ++ fresh) := by
  obtain ⟨spawned, hs, he⟩ := spawn_cases sizes f s.photons
  have hph : (frameStep lib sizes s f).photons =
      ((s.photons ++ spawned).filter
        (fun p => !lib.intersects p (cathodeBounds sizes))).map
        (fun p => p.Update f.elapsed) := by
    rw [frameStep_photons, he]; rfl
  refine ⟨spawned, hs, he, ?_, ?_, ?_, ?_, ?_⟩
  · rw [hph]; rfl
  · rw [hph, List.length_map]
  · rw [hph, List.length_map]
    have hcount := List.length_eq_countP_add_countP
      (fun p => !lib.intersects p (cathodeBounds sizes)) (s.photons ++ spawned)
    rw [List.countP_eq_length_filter, List.countP_eq_length_filter] at hcount
    rw [hcount]
    simp
  · rw [frameStep_electrons, he, collide_eq]
  · intro g
    obtain ⟨fresh, hf, hg⟩ := spawn_cases sizes g (frameStep lib sizes s f).photons
    exact ⟨fresh, hf, by rw [hg, hph]⟩

/-! ### The electron list -/

theorem newElectron_moving (lib : Library) (hsqrt : ∀ x : ℚ, 0 < x → 0 < lib.sqrt x)
    (p : Photon) (ke : ℚ) (hke : 0 < ke) :
    0 < (newElectron lib p ke).kinetic_energy_ ∧ 0 < (newElectron lib p ke).speed_.x ∧
      (newElectron lib p ke).speed_.y = 0 := by
  refine ⟨hke, ?_, rfl⟩
  show 0 < lib.sqrt (ke * 2 / Electron.kMass) * kElectronScale
  have hm : (0 : ℚ) < Electron.kMass := by norm_num [Electron.kMass]
  have hs : (0 : ℚ) < kElectronScale := by norm_num [kElectronScale]
  exact mul_pos (hsqrt _ (div_pos (by linarith) hm)) hs

theorem collide_moving (lib : Library) (hsqrt : ∀ x : ℚ, 0 < x → 0 < lib.sqrt x)
    (sizes : VideoMode) (f : Frame) (photons : List Photon) (electrons : List Electron)
    (h : ElectronsMoving electrons) :
    ElectronsMoving (collide lib sizes f photons electrons) := by
  intro e he
  rw [collide_eq] at he
  rcases List.mem_append.mp he with hold | hnew
  · exact h e hold
  · obtain ⟨p, _, hp⟩ := List.mem_flatMap.mp hnew
    split_ifs at hp with hc
    · rw [List.mem_singleton.mp hp]
      exact newElectron_moving lib hsqrt p _ hc.2
    · simp at hp

theorem moving_not_at_rest (e : Electron) (h : 0 < e.speed_.x) :
    decide (e.GetSpeed = (⟨0, 0⟩ : Vector2f)) = false := by
  apply decide_eq_false
  intro h0
  unfold Photon.GetSpeed at h0
  rw [h0] at h
  exact lt_irrefl _ h

theorem erase_if_electrons_moving (lib : Library) (sizes : VideoMode)
    (electrons : List Electron) (h : ElectronsMoving electrons) :
    erase_if electrons (electronTerminated lib sizes) =
      erase_if electrons (fun e => lib.intersects e (anodeBounds sizes)) := by
  unfold erase_if
  apply List.filter_congr
  intro e he
  unfold electronTerminated
  rw [moving_not_at_rest e (h e he).2.1, Bool.or_false]

theorem frameStep_moving (lib : Library) (hsqrt : ∀ x : ℚ, 0 < x → 0 < lib.sqrt x)
    (sizes : VideoMode) (s : State) (f : Frame) (h : ElectronsMoving s.electrons) :
    ElectronsMoving (frameStep lib sizes s f).electrons := by
  intro e he
  rw [frameStep_electrons] at he
  obtain ⟨e0, he0, rfl⟩ := List.mem_map.mp he
  have hmem : e0 ∈ collide lib sizes f (spawn sizes f s.photons) s.electrons :=
    (List.mem_filter.mp he0).1
  exact collide_moving lib hsqrt sizes f _ _ h e0 hmem

theorem foldl_frameStep_moving (lib : Library) (hsqrt : ∀ x : ℚ, 0 < x → 0 < lib.sqrt x)
    (sizes : VideoMode) (frames : List Frame) :
    ∀ s : State, ElectronsMoving s.electrons →
      ElectronsMoving (frames.foldl (frameStep lib sizes) s).electrons := by
  induction frames with
  | nil => intro s h; exact h
  | cons f fs ih =>
    intro s h
    rw [List.foldl_cons]
    exact ih _ (frameStep_moving lib hsqrt sizes s f h)

/-- C7. When `sqrt` is positive on positive arguments, in every state reached from
the initial state by any sequence of frames, whatever their settings, every
electron has positive kinetic energy and a velocity `(s, 0)` with `s > 0`; so the
test "velocity equals `(0, 0)`" of the electron removal is false for every
electron of such a state and of the list the removal runs on, and the removal of
the next frame drops exactly the electrons that intersect the anode. -/
theorem electrons_always_moving (lib : Library)
    (hsqrt : ∀ x : ℚ, 0 < x → 0 < lib.sqrt x)
    (sizes : VideoMode) (frames : List Frame) :
    (∀ e ∈ (run lib sizes frames).electrons,
      0 < e.kinetic_energy_ ∧ (∃ v : ℚ, 0 < v ∧ e.speed_ = ⟨v, 0⟩) ∧
      decide (e.GetSpeed = (⟨0, 0⟩ : Vector2f)) = false) ∧
    (∀ f : Frame,
      (∀ e ∈ collide lib sizes f (spawn sizes f (run lib sizes frames).photons)
          (run lib sizes frames).electrons,
        decide (e.GetSpeed = (⟨0, 0⟩ : Vector2f)) = false) ∧
      (frameStep lib sizes (run lib sizes frames) f).electrons =
        (erase_if
          (collide lib sizes f (spawn sizes f (run lib sizes frames).photons)
            (run lib sizes frames).electrons)
          (fun e => lib.intersects e (anodeBounds sizes))).map
          (fun e => e.Update f.elapsed)) := by
  have hinv : ElectronsMoving (run lib sizes frames).electrons :=
    foldl_frameStep_moving lib hsqrt sizes frames State.initial
      (fun e he => by simp [State.initial] at he)
  constructor
  · intro e he
    obtain ⟨hk, hx, hy⟩ := hinv e he
    refine ⟨hk, ⟨e.speed_.x, hx, ?_⟩, moving_not_at_rest e hx⟩
    cases hsp : e.speed_ with
    | mk vx vy =>
      rw [hsp] at hy
      simp only [Vector2f.mk.injEq, true_and]
      exact hy
  · intro f
    have hcol := collide_moving lib hsqrt sizes f (spawn sizes f (run lib sizes frames).photons)
      (run lib sizes frames).electrons hinv
    refine ⟨fun e he => moving_not_at_rest e (hcol e he).2.1, ?_⟩
    rw [frameStep_electrons, erase_if_electrons_moving lib sizes _ hcol]

theorem sample_newPhoton :
    newPhoton sampleSizes 200 0 =
      { kinetic_energy_ := 9612411 / 2 ^ 83, speed_ := ⟨-750, 300⟩, position := ⟨830, 250⟩,
        radius := 10, fillColor := ⟨220, 0, 255⟩ } := by
  have hc : GetWaveColor 200 = ⟨220, 0, 255⟩ := GetWaveColor_of_le_380 200 (by norm_num)
  have h : newPhoton sampleSizes 200 0 =
      { kinetic_energy_ := photonEnergy 200,
        speed_ := ⟨-(kLightSpeed * kPhotonScale) * 2.5, kLightSpeed * kPhotonScale⟩,
        position := ⟨sampleSizes.width * 0.83 + 0, sampleSizes.height * 0.25 + 0⟩,
        radius := 10, fillColor := GetWaveColor 200 } := rfl
  rw [h, photonEnergy_200, hc]
  norm_num [kLightSpeed, kPhotonScale, sampleSizes]

theorem sample_run_electrons :
    (run sampleLibrary sampleSizes [sampleSlowFrame, sampleFrame]).electrons =
      [newElectron sampleLibrary ((newPhoton sampleSizes 200 0).Update 1) (737203 / 2 ^ 81)] := by
  have hclamp : clamp 200 200 860 = 200 := clamp_id 200 (by norm_num) (by norm_num)
  have hsp1 : spawn sampleSizes sampleSlowFrame [] = [newPhoton sampleSizes 200 0] := by
    simp [spawn, sampleSlowFrame, spawnInterval, fdiv, exceeds, hclamp]
    norm_num
  have hsp2 : ∀ l, spawn sampleSizes sampleFrame l = l := by
    intro l
    simp [spawn, sampleFrame, spawnInterval, fdiv, exceeds]
  have hmiss : sampleIntersects (newPhoton sampleSizes 200 0) (cathodeBounds sampleSizes)
      = false := by
    rw [sample_newPhoton]
    norm_num [sampleIntersects, cathodeBounds, sampleSizes]
  have hup : (newPhoton sampleSizes 200 0).Update 1 =
      { kinetic_energy_ := 9612411 / 2 ^ 83, speed_ := ⟨-750, 300⟩, position := ⟨80, 550⟩,
        radius := 10, fillColor := ⟨220, 0, 255⟩ } := by
    rw [sample_newPhoton]
    norm_num [Photon.Update, Photon.SetPosition]
  have hhit : sampleIntersects ((newPhoton sampleSizes 200 0).Update 1)
      (cathodeBounds sampleSizes) = true := by
    rw [hup]
    norm_num [sampleIntersects, cathodeBounds, sampleSizes]
  have hres : residualEnergy sampleFrame ((newPhoton sampleSizes 200 0).Update 1)
      = 737203 / 2 ^ 81 := by
    rw [residualEnergy_of sampleFrame _ (9612411 / 2 ^ 83) 0 (6663599 / 2 ^ 83)
      (by rw [hup]) rfl zinc_work_func, kElectronCharge_eq]
    exact residual_200
  have hlib : sampleLibrary.intersects = sampleIntersects := rfl
  have hs1 : frameStep sampleLibrary sampleSizes State.initial sampleSlowFrame =
      ⟨[(newPhoton sampleSizes 200 0).Update 1], []⟩ := by
    have hp : (frameStep sampleLibrary sampleSizes State.initial sampleSlowFrame).photons =
        [(newPhoton sampleSizes 200 0).Update 1] := by
      rw [frameStep_photons]
      have e1 : sampleSlowFrame.elapsed = 1 := rfl
      rw [e1]
      simp [State.initial, hsp1, erase_if, photonTerminated, hlib, hmiss]
    have he : (frameStep sampleLibrary sampleSizes State.initial sampleSlowFrame).electrons =
        [] := by
      rw [frameStep_electrons, collide_eq]
      simp [State.initial, hsp1, erase_if, hlib, hmiss]
    cases hfs : frameStep sampleLibrary sampleSizes State.initial sampleSlowFrame with
    | mk ps es =>
      rw [hfs] at hp he
      simp only at hp he
      rw [hp, he]
  have hanode : sampleIntersects
      (newElectron sampleLibrary ((newPhoton sampleSizes 200 0).Update 1) (737203 / 2 ^ 81))
      (anodeBounds sampleSizes) = false := by
    rw [hup]
    norm_num [sampleIntersects, anodeBounds, sampleSizes, newElectron, Electron.new, Photon.new,
      Photon.SetPosition, Photon.SetSpeed, Photon.GetPosition]
  have hmove := moving_not_at_rest
    (newElectron sampleLibrary ((newPhoton sampleSizes 200 0).Update 1) (737203 / 2 ^ 81))
    (newElectron_moving sampleLibrary sampleSqrt_pos _ _ (by norm_num)).2.1
  show (frameStep sampleLibrary sampleSizes
    (frameStep sampleLibrary sampleSizes State.initial sampleSlowFrame) sampleFrame).electrons = _
  rw [hs1, frameStep_electrons, hsp2, collide_eq]
  have he0 : sampleFrame.elapsed = 0 := rfl
  rw [he0, map_Update_zero]
  simp [erase_if, electronTerminated, hres, hmove, hlib, hhit, hanode]

/-- Witness for C7: after a slow frame that spawns a photon and moves it into the
cathode and a second frame that converts it, the electron list holds one electron,
and it has positive energy and a velocity `(v, 0)` with `v > 0`. -/
theorem electrons_always_moving_witness :
    (run sampleLibrary sampleSizes [sampleSlowFrame, sampleFrame]).electrons.length = 1 ∧
    ∀ e ∈ (run sampleLibrary sampleSizes [sampleSlowFrame, sampleFrame]).electrons,
      0 < e.kinetic_energy_ ∧ (∃ v : ℚ, 0 < v ∧ e.speed_ = ⟨v, 0⟩) ∧
      decide (e.GetSpeed = (⟨0, 0⟩ : Vector2f)) = false :=
  ⟨by rw [sample_run_electrons]; rfl,
   (electrons_always_moving sampleLibrary sampleSqrt_pos sampleSizes
      [sampleSlowFrame, sampleFrame]).1⟩

/-! ### A frame of zero duration -/

/-- C8. In a frame with `elapsed = 0` the update leaves every particle as it is:
the new photon list is the list evaluated by the collision loop without the
photons that intersect the cathode, and the new electron list is the list the
collision loop produced without the electrons the removal test rejects, all with
unchanged positions.  The checks are still made: each intersecting photon with a
positive residual adds its electron, no photon of the result intersects the
cathode and no electron of the result intersects the anode. -/
theorem frameStep_zero_elapsed (lib : Library) (sizes : VideoMode) (s : State) (f : Frame)
    (h0 : f.elapsed = 0) :
    (∀ p : Photon, p.Update f.elapsed = p) ∧
    (frameStep lib sizes s f).photons =
      erase_if (spawn sizes f s.photons) (photonTerminated lib sizes) ∧
    (frameStep lib sizes s f).electrons =
      erase_if (collide lib sizes f (spawn sizes f s.photons) s.electrons)
        (electronTerminated lib sizes) ∧
    collide lib sizes f (spawn sizes f s.photons) s.electrons =
      s.electrons ++ (spawn sizes f s.photons).flatMap (fun p =>
        if lib.intersects p (cathodeBounds sizes) = true ∧ 0 < residualEnergy f p then
          [newElectron lib p (residualEnergy f p)] else []) ∧
    (∀ p ∈ (frameStep lib sizes s f).photons,
      p ∈ spawn sizes f s.photons ∧ lib.intersects p (cathodeBounds sizes) = false) ∧
    (∀ e ∈ (frameStep lib sizes s f).electrons,
      e ∈ collide lib sizes f (spawn sizes f s.photons) s.electrons ∧
      lib.intersects e (anodeBounds sizes) = false) := by
  have hph : (frameStep lib sizes s f).photons =
      erase_if (spawn sizes f s.photons) (photonTerminated lib sizes) := by
    rw [frameStep_photons, h0, map_Update_zero]
  have hel : (frameStep lib sizes s f).electrons =
      erase_if (collide lib sizes f (spawn sizes f s.photons) s.electrons)
        (electronTerminated lib sizes) := by
    rw [frameStep_electrons, h0, map_Update_zero]
  refine ⟨fun p => by rw [h0]; exact Update_zero p, hph, hel, collide_eq _ _ _ _ _, ?_, ?_⟩
  · intro p hp
    rw [hph] at hp
    obtain ⟨hmem, hkeep⟩ := List.mem_filter.mp hp
    refine ⟨hmem, ?_⟩
    simpa [photonTerminated] using hkeep
  · intro e he
    rw [hel] at he
    obtain ⟨hmem, hkeep⟩ := List.mem_filter.mp he
    refine ⟨hmem, ?_⟩
    simp only [electronTerminated, Bool.not_or, Bool.and_eq_true, Bool.not_eq_true'] at hkeep
    exact hkeep.1

/-- Witness for C8: from a state with a photon inside the cathode, a photon in
flight, an electron in flight and an electron inside the anode, a frame of zero
duration keeps the photon and the electron in flight where they are, drops the
other two, and adds the electron of the absorbed photon at the photon's position. -/
theorem frameStep_zero_elapsed_witness :
    (frameStep sampleLibrary sampleSizes sampleState sampleFrame).photons =
      [samplePhotonInFlight] ∧
    (frameStep sampleLibrary sampleSizes sampleState sampleFrame).electrons =
      [sampleElectronInFlight,
       newElectron sampleLibrary samplePhotonAtCathode (4294105 / 2 ^ 85)] := by
  obtain ⟨_, hph, hel, hcol, _, _⟩ :=
    frameStep_zero_elapsed sampleLibrary sampleSizes sampleState sampleFrame rfl
  have hlib : sampleLibrary.intersects = sampleIntersects := rfl
  have hsp : ∀ l, spawn sampleSizes sampleFrame l = l := by
    intro l
    simp [spawn, sampleFrame, spawnInterval, fdiv, exceeds]
  have hit1 : sampleIntersects samplePhotonAtCathode (cathodeBounds sampleSizes) = true := by
    norm_num [sampleIntersects, samplePhotonAtCathode, cathodeBounds, sampleSizes]
  have hit2 : sampleIntersects samplePhotonInFlight (cathodeBounds sampleSizes) = false := by
    norm_num [sampleIntersects, samplePhotonInFlight, cathodeBounds, sampleSizes]
  have an1 : sampleIntersects sampleElectronInFlight (anodeBounds sampleSizes) = false := by
    norm_num [sampleIntersects, sampleElectronInFlight, anodeBounds, sampleSizes]
  have an2 : sampleIntersects sampleElectronAtAnode (anodeBounds sampleSizes) = true := by
    norm_num [sampleIntersects, sampleElectronAtAnode, anodeBounds, sampleSizes]
  have an3 : sampleIntersects (newElectron sampleLibrary samplePhotonAtCathode (4294105 / 2 ^ 85))
      (anodeBounds sampleSizes) = false := by
    norm_num [sampleIntersects, anodeBounds, sampleSizes, newElectron, Electron.new, Photon.new,
      Photon.SetPosition, Photon.SetSpeed, Photon.GetPosition, samplePhotonAtCathode]
  have hres : residualEnergy sampleFrame samplePhotonAtCathode = 4294105 / 2 ^ 85 := by
    rw [residualEnergy_of sampleFrame samplePhotonAtCathode _ 0 (6663599 / 2 ^ 83)
      toDouble_energy_8 rfl zinc_work_func, kElectronCharge_eq]
    exact residual_high_double
  have mv1 : decide (sampleElectronInFlight.GetSpeed = (⟨0, 0⟩ : Vector2f)) = false :=
    moving_not_at_rest _ (by norm_num [sampleElectronInFlight])
  have mv3 := moving_not_at_rest
    (newElectron sampleLibrary samplePhotonAtCathode (4294105 / 2 ^ 85))
    (newElectron_moving sampleLibrary sampleSqrt_pos _ _ (by norm_num)).2.1
  constructor
  · rw [hph, hsp]
    simp [sampleState, erase_if, photonTerminated, hlib, hit1, hit2]
  · rw [hel, hcol, hsp]
    simp [sampleState, erase_if, electronTerminated, hlib, hit1, hit2, an1, an2, an3, hres,
      mv1, mv3]

end Photoeffect
